import Mathlib

/-!
Verification of the CDC capture-and-resolve engine (`components/cdc/src/endpoint.rs`)
against its natural-language specification.

The development shallowly embeds the endpoint's data model and task handlers.
Pure structures (`ResolvedRegionHeap`, `Advance`) are translated directly from
the source.  The endpoint's collaborators (`Delegate`, `Conn`, config
validation) live in files that are not part of the excerpt; those parts are
modelled from the specification, and each such definition is marked with a
doc comment starting `Modelled from the spec:`.
-/

namespace Cdc

/-- `TimeStamp::max()`: timestamps are `u64`, so the maximum is `2^64 - 1`. -/
def tsMax : Nat := 2 ^ 64 - 1

/-- One entry of `ResolvedRegionHeap`: `ResolvedRegion { region_id, resolved_ts }`. -/
structure ResolvedRegion where
  region_id : Nat
  resolved_ts : Nat
deriving Repr, DecidableEq

/-- `ResolvedRegionHeap`: a min-heap on `resolved_ts` (`BinaryHeap<Reverse<_>>`
in the source), embedded as the multiset of entries it holds.  `pop` below
extracts minimal-`resolved_ts` entries, which is the heap's observable
behaviour; ties are broken deterministically (leftmost). -/
structure ResolvedRegionHeap where
  entries : List ResolvedRegion
deriving Repr, DecidableEq

/-- `ResolvedRegionHeap::push`. -/
def ResolvedRegionHeap.push (h : ResolvedRegionHeap) (region_id resolved_ts : Nat) :
    ResolvedRegionHeap :=
  ⟨⟨region_id, resolved_ts⟩ :: h.entries⟩

/-- Extract one entry of minimal `resolved_ts` (the heap's `pop` of a single
element), returning it and the remaining entries. -/
def popMin : List ResolvedRegion → Option (ResolvedRegion × List ResolvedRegion)
  | [] => none
  | x :: xs =>
    match popMin xs with
    | none => some (x, xs)
    | some (m, rest) =>
      if x.resolved_ts ≤ m.resolved_ts then some (x, xs) else some (m, x :: rest)

/-- The loop inside `ResolvedRegionHeap::pop`: pop at most `count` minimal
entries, returning the popped entries (in pop order) and the rest. -/
def popLoop : Nat → List ResolvedRegion → List ResolvedRegion × List ResolvedRegion
  | 0, l => ([], l)
  | n + 1, l =>
    match popMin l with
    | none => ([], l)
    | some (m, rest) =>
      let p := popLoop n rest
      (m :: p.1, p.2)

/-- `ResolvedRegionHeap::pop(count)`: pops up to `count` entries; the returned
timestamp starts at `TimeStamp::max()` and is lowered to each popped entry's
`resolved_ts` when smaller, i.e. it is the fold of `min` over the popped
timestamps; the returned ids are the popped entries' region ids. -/
def ResolvedRegionHeap.pop (h : ResolvedRegionHeap) (count : Nat) :
    (Nat × List Nat) × ResolvedRegionHeap :=
  let p := popLoop count h.entries
  (((p.1.map ResolvedRegion.resolved_ts).foldr min tsMax,
    p.1.map ResolvedRegion.region_id), ⟨p.2⟩)

/-- `ResolvedRegionHeap::is_empty`. -/
def ResolvedRegionHeap.is_empty (h : ResolvedRegionHeap) : Bool :=
  h.entries.isEmpty

theorem popMin_none {l : List ResolvedRegion} (h : popMin l = none) : l = [] := by
  cases l with
  | nil => rfl
  | cons x xs =>
    exfalso
    cases h' : popMin xs with
    | none => simp [popMin, h'] at h
    | some p =>
      obtain ⟨m, rest⟩ := p
      simp only [popMin, h'] at h
      split at h <;> simp_all

theorem popMin_perm {l : List ResolvedRegion} {m : ResolvedRegion}
    {rest : List ResolvedRegion} (h : popMin l = some (m, rest)) :
    l.Perm (m :: rest) := by
  induction l generalizing m rest with
  | nil => simp [popMin] at h
  | cons x xs ih =>
    cases h' : popMin xs with
    | none =>
      rcases popMin_none h' with rfl
      simp only [popMin, Option.some.injEq, Prod.mk.injEq] at h
      obtain ⟨rfl, rfl⟩ := h
      exact List.Perm.refl _
    | some p =>
      obtain ⟨m', rest'⟩ := p
      have hperm := ih h'
      simp only [popMin, h'] at h
      split at h <;>
        (simp only [Option.some.injEq, Prod.mk.injEq] at h; obtain ⟨rfl, rfl⟩ := h)
      · exact List.Perm.refl _
      · exact (hperm.cons x).trans (List.Perm.swap m' x rest')

theorem popMin_min {l : List ResolvedRegion} {m : ResolvedRegion}
    {rest : List ResolvedRegion} (h : popMin l = some (m, rest)) :
    ∀ y ∈ l, m.resolved_ts ≤ y.resolved_ts := by
  induction l generalizing m rest with
  | nil => simp [popMin] at h
  | cons x xs ih =>
    cases h' : popMin xs with
    | none =>
      rcases popMin_none h' with rfl
      simp only [popMin, Option.some.injEq, Prod.mk.injEq] at h
      obtain ⟨rfl, rfl⟩ := h
      intro y hy
      rcases List.mem_singleton.mp hy with rfl
      exact Nat.le_refl _
    | some p =>
      obtain ⟨m', rest'⟩ := p
      have hmin := ih h'
      simp only [popMin, h'] at h
      split at h <;>
        (simp only [Option.some.injEq, Prod.mk.injEq] at h; obtain ⟨rfl, rfl⟩ := h)
      · rename_i hle
        intro y hy
        rcases List.mem_cons.mp hy with rfl | hy
        · exact Nat.le_refl _
        · exact Nat.le_trans hle (hmin y hy)
      · rename_i hgt
        intro y hy
        rcases List.mem_cons.mp hy with rfl | hy
        · exact Nat.le_of_lt (Nat.lt_of_not_le hgt)
        · exact hmin y hy

theorem popLoop_perm (count : Nat) (l : List ResolvedRegion) :
    l.Perm ((popLoop count l).1 ++ (popLoop count l).2) := by
  induction count generalizing l with
  | zero => simp [popLoop]
  | succ n ih =>
    cases h : popMin l with
    | none => simp [popLoop, h]
    | some p =>
      obtain ⟨m, rest⟩ := p
      have hperm := popMin_perm h
      simp only [popLoop, h]
      simpa using hperm.trans ((ih rest).cons m)

theorem popLoop_length (count : Nat) (l : List ResolvedRegion) :
    (popLoop count l).1.length = min count l.length := by
  induction count generalizing l with
  | zero => simp [popLoop]
  | succ n ih =>
    cases h : popMin l with
    | none =>
      rcases popMin_none h with rfl
      simp [popLoop, h]
    | some p =>
      obtain ⟨m, rest⟩ := p
      have hlen : l.length = rest.length + 1 := by
        simpa using (popMin_perm h).length_eq
      simp [popLoop, h, ih rest, hlen, Nat.succ_min_succ]

theorem popLoop_sep (count : Nat) (l : List ResolvedRegion) :
    ∀ x ∈ (popLoop count l).1, ∀ y ∈ (popLoop count l).2,
      x.resolved_ts ≤ y.resolved_ts := by
  induction count generalizing l with
  | zero => simp [popLoop]
  | succ n ih =>
    cases h : popMin l with
    | none => simp [popLoop, h]
    | some p =>
      obtain ⟨m, rest⟩ := p
      simp only [popLoop, h]
      intro x hx y hy
      simp only [List.mem_cons] at hx
      rcases hx with rfl | hx
      · -- `m` is minimal in `l`, and every kept entry comes from `rest ⊆ l`.
        have hyl : y ∈ l := by
          have hr : y ∈ rest := ((popLoop_perm n rest).mem_iff).mpr
            (List.mem_append.mpr (Or.inr hy))
          exact ((popMin_perm h).mem_iff).mpr (List.mem_cons_of_mem _ hr)
        exact popMin_min h y hyl
      · exact ih rest x hx y hy

theorem foldr_min_le (l : List Nat) (init : Nat) : ∀ t ∈ l, l.foldr min init ≤ t := by
  induction l with
  | nil => simp
  | cons x xs ih =>
    intro t ht
    rcases List.mem_cons.mp ht with rfl | ht
    · exact Nat.min_le_left _ _
    · exact Nat.le_trans (Nat.min_le_right _ _) (ih t ht)

theorem foldr_min_mem (l : List Nat) (init : Nat) (hb : ∀ t ∈ l, t ≤ init)
    (hne : l ≠ []) : l.foldr min init ∈ l := by
  induction l with
  | nil => exact absurd rfl hne
  | cons x xs ih =>
    cases xs with
    | nil =>
      have hx : x ≤ init := hb x (List.mem_singleton.mpr rfl)
      simp [Nat.min_def, hx]
    | cons y ys =>
      have hmem : (y :: ys).foldr min init ∈ y :: ys :=
        ih (fun t ht => hb t (List.mem_cons_of_mem _ ht)) (by simp)
      show min x ((y :: ys).foldr min init) ∈ x :: y :: ys
      rcases Nat.le_total x ((y :: ys).foldr min init) with hle | hle
      · rw [Nat.min_eq_left hle]
        exact List.mem_cons_self _ _
      · rw [Nat.min_eq_right hle]
        exact List.mem_cons_of_mem _ hmem

/-- C1: `ResolvedRegionHeap::pop`.  After pushing (5,5), (4,4), (6,6), (3,3),
`pop(0)` returns `(TimeStamp::max(), ∅)` and leaves the heap intact, `pop(2)`
returns `(3, {3,4})`, and a subsequent `pop(3)` on the two remaining entries
returns `(5, {5,6})` and empties the heap.  In general `pop(count)` removes
`min count n` entries, every removed entry's `resolved_ts` is at most every
kept entry's, the returned region ids are exactly the removed entries' ids,
and the returned timestamp is `TimeStamp::max()` when nothing was removed and
otherwise the minimum `resolved_ts` among the removed entries. -/
theorem c1_resolved_region_heap_pop :
    (let h0 : ResolvedRegionHeap :=
      ((((⟨[]⟩ : ResolvedRegionHeap).push 5 5).push 4 4).push 6 6).push 3 3
    (h0.pop 0).1 = (tsMax, []) ∧ (h0.pop 0).2 = h0 ∧
    (h0.pop 2).1 = (3, [3, 4]) ∧ (h0.pop 2).2.entries.length = 2 ∧
    ((h0.pop 2).2.pop 3).1 = (5, [5, 6]) ∧ ((h0.pop 2).2.pop 3).2.is_empty = true) ∧
    ∀ (h : ResolvedRegionHeap) (count : Nat),
      (∀ e ∈ h.entries, e.resolved_ts ≤ tsMax) →
      ∃ removed : List ResolvedRegion,
        h.entries.Perm (removed ++ (h.pop count).2.entries) ∧
        removed.length = min count h.entries.length ∧
        (∀ x ∈ removed, ∀ y ∈ (h.pop count).2.entries,
          x.resolved_ts ≤ y.resolved_ts) ∧
        (h.pop count).1.2 = removed.map ResolvedRegion.region_id ∧
        ((removed = [] ∧ (h.pop count).1.1 = tsMax) ∨
         (removed ≠ [] ∧
          (h.pop count).1.1 ∈ removed.map ResolvedRegion.resolved_ts ∧
          ∀ t ∈ removed.map ResolvedRegion.resolved_ts, (h.pop count).1.1 ≤ t)) := by
  constructor
  · exact ⟨by decide, by decide, by decide, by decide, by decide, by decide⟩
  · intro h count hb
    refine ⟨(popLoop count h.entries).1, ?_, ?_, ?_, rfl, ?_⟩
    · exact popLoop_perm count h.entries
    · exact popLoop_length count h.entries
    · exact popLoop_sep count h.entries
    · cases hrm : (popLoop count h.entries).1 with
      | nil =>
        left
        refine ⟨rfl, ?_⟩
        simp [ResolvedRegionHeap.pop, hrm]
      | cons r rs =>
        right
        have hsub : ∀ t ∈ ((r :: rs).map ResolvedRegion.resolved_ts), t ≤ tsMax := by
          intro t ht
          obtain ⟨e, he, rfl⟩ := List.mem_map.mp ht
          have : e ∈ h.entries := (popLoop_perm count h.entries).mem_iff.mpr
            (List.mem_append.mpr (Or.inl (hrm ▸ he)))
          exact hb e this
        refine ⟨by simp, ?_, ?_⟩
        · show ((popLoop count h.entries).1.map ResolvedRegion.resolved_ts).foldr min tsMax ∈ _
          rw [hrm]
          exact foldr_min_mem _ _ hsub (by simp)
        · intro t ht
          show ((popLoop count h.entries).1.map ResolvedRegion.resolved_ts).foldr min tsMax ≤ t
          rw [hrm]
          exact foldr_min_le _ _ t ht

/-! ### `Advance` and `Advance::emit_resolved_ts` -/

/-- One message pushed to a connection's sink by `Advance::emit_resolved_ts`:
either a batched `CdcEvent::ResolvedTs` or, for pre-batching clients, a
single-region `CdcEvent::Event` carrying a `ResolvedTs` payload. -/
inductive EmitMsg where
  | resolvedTs (conn_id req_id ts : Nat) (regions : List Nat)
  | compatEvent (conn_id region_id req_id ts : Nat)
deriving Repr, DecidableEq

/-- The min tracking inside `batch_send`: `batch_min_resolved_ts` starts at 0
(unset); a batch lowers it when unset or strictly larger, and records
`regions[0]` as the min-ts region when the batch is nonempty. -/
def batchAccum (acc : Nat × Nat) (b : Nat × List Nat) : Nat × Nat :=
  if acc.1 = 0 ∨ b.1 < acc.1 then
    (b.1, match b.2 with | [] => acc.2 | r :: _ => r)
  else acc

/-- The min tracking inside `compat_send` over `(ts, region_id)` pairs. -/
def compatAccum (acc : Nat × Nat) (e : Nat × Nat) : Nat × Nat :=
  if acc.1 = 0 ∨ e.1 < acc.1 then (e.1, e.2) else acc

/-- The `Advance` accumulator (one resolution cycle). -/
structure Advance where
  multiplexing : List ((Nat × Nat) × ResolvedRegionHeap)
  exclusive : List (Nat × ResolvedRegionHeap)
  compat : List ((Nat × Nat) × (Nat × Nat))
  scan_finished : Nat
  blocked_on_scan : Nat
  blocked_on_locks : Nat
  min_resolved_ts : Nat
  min_ts_region_id : Nat
deriving Repr, DecidableEq

/-- The `while !region_ts_heap.is_empty()` loop of `emit_resolved_ts`:
repeatedly pop `batch_count` entries, multiplying `batch_count` by 4 after
each round.  Fuel-indexed; `h.entries.length` rounds always suffice because
every round with a positive `batch_count` pops at least one entry. -/
def drainHeapGo : Nat → Nat → ResolvedRegionHeap → List (Nat × List Nat)
  | 0, _, _ => []
  | fuel + 1, bc, h =>
    if h.is_empty then []
    else
      let p := h.pop bc
      (p.1.1, p.1.2) :: drainHeapGo fuel (bc * 4) p.2

/-- The full batch schedule for one heap: `batch_count` starts at 8. -/
def drainHeap (h : ResolvedRegionHeap) : List (Nat × List Nat) :=
  drainHeapGo h.entries.length 8 h

/-- The loop over `unioned` in `emit_resolved_ts`: each element is
`(conn_id, req_id, heap)`; the heap is drained unconditionally, and one
`ResolvedTs` message per batch is sent iff the connection has the
`BATCH_RESOLVED_TS` feature (`features conn_id`), threading the
`batch_min_resolved_ts` accumulator through `batch_send`. -/
def emitUnioned (features : Nat → Bool) :
    List (Nat × Nat × ResolvedRegionHeap) → Nat × Nat → (Nat × Nat) × List EmitMsg
  | [], acc => (acc, [])
  | (cid, req, h) :: rest, acc =>
    let batches := drainHeap h
    let acc' := if features cid then batches.foldl batchAccum acc else acc
    let msgs := if features cid then
        batches.map (fun b => EmitMsg.resolvedTs cid req b.1 b.2)
      else []
    let r := emitUnioned features rest acc'
    (r.1, msgs ++ r.2)

/-- The loop over `compat` in `emit_resolved_ts`: one single-region event per
entry, threading the `compat_min_resolved_ts` accumulator. -/
def emitCompat : List ((Nat × Nat) × (Nat × Nat)) → Nat × Nat → (Nat × Nat) × List EmitMsg
  | [], acc => (acc, [])
  | ((cid, region), (req, ts)) :: rest, acc =>
    let acc' := compatAccum acc (ts, region)
    let r := emitCompat rest acc'
    (r.1, EmitMsg.compatEvent cid region req ts :: r.2)

/-- `Advance::emit_resolved_ts`.  `features conn_id` stands for
`connections.get(&conn_id).unwrap().features().contains(BATCH_RESOLVED_TS)`;
the lookup's `unwrap` is modelled by taking the feature set as a total
function.  The heaps and the compat map are consumed (`mem::take`), and the
`min_resolved_ts` / `min_ts_region_id` fields are set from the batched
accumulator when it is nonzero and from the compat accumulator otherwise. -/
def Advance.emit_resolved_ts (a : Advance) (features : Nat → Bool) :
    Advance × List EmitMsg :=
  let unioned := a.multiplexing.map (fun x => (x.1.1, x.1.2, x.2))
      ++ a.exclusive.map (fun x => (x.1, 0, x.2))
  let rb := emitUnioned features unioned (0, 0)
  let rc := emitCompat a.compat (0, 0)
  let a' := { a with
    multiplexing := [], exclusive := [], compat := [],
    min_resolved_ts := if rb.1.1 > 0 then rb.1.1 else rc.1.1,
    min_ts_region_id := if rb.1.1 > 0 then rb.1.2 else rc.1.2 }
  (a', rb.2 ++ rc.2)

/-- The tail of `Endpoint::on_min_ts`: after `emit_resolved_ts` the endpoint
records `advance.min_resolved_ts` and `advance.min_ts_region_id` as its
observability fields. -/
def endpointRecordedMin (a : Advance) (features : Nat → Bool) : Nat × Nat :=
  let r := a.emit_resolved_ts features
  (r.1.min_resolved_ts, r.1.min_ts_region_id)

/-- The `(ts, regions)` payloads of the batched `ResolvedTs` messages in an
emission, in send order: what the batched path produced this cycle. -/
def batchPairs (msgs : List EmitMsg) : List (Nat × List Nat) :=
  msgs.filterMap (fun m => match m with
    | EmitMsg.resolvedTs _ _ ts regions => some (ts, regions)
    | EmitMsg.compatEvent _ _ _ _ => none)

/-- The `(ts, region_id)` payloads of the compat (single-region) events in an
emission, in send order: what the compat path produced this cycle. -/
def compatPairs (msgs : List EmitMsg) : List (Nat × Nat) :=
  msgs.filterMap (fun m => match m with
    | EmitMsg.resolvedTs _ _ _ _ => none
    | EmitMsg.compatEvent _ region _ ts => some (ts, region))

theorem batchPairs_append (l1 l2 : List EmitMsg) :
    batchPairs (l1 ++ l2) = batchPairs l1 ++ batchPairs l2 := by
  simp [batchPairs]

theorem compatPairs_append (l1 l2 : List EmitMsg) :
    compatPairs (l1 ++ l2) = compatPairs l1 ++ compatPairs l2 := by
  simp [compatPairs]

theorem batchPairs_map_resolvedTs (cid req : Nat) (bs : List (Nat × List Nat)) :
    batchPairs (bs.map (fun b => EmitMsg.resolvedTs cid req b.1 b.2)) = bs := by
  induction bs with
  | nil => rfl
  | cons b rest ih => simpa [batchPairs, List.filterMap_cons] using ih

theorem compatPairs_map_resolvedTs (cid req : Nat) (bs : List (Nat × List Nat)) :
    compatPairs (bs.map (fun b => EmitMsg.resolvedTs cid req b.1 b.2)) = [] := by
  induction bs with
  | nil => rfl
  | cons b rest ih => simp [compatPairs, List.filterMap_cons, ih]

theorem emitUnioned_acc (features : Nat → Bool)
    (l : List (Nat × Nat × ResolvedRegionHeap)) (acc : Nat × Nat) :
    (emitUnioned features l acc).1
      = (batchPairs (emitUnioned features l acc).2).foldl batchAccum acc := by
  induction l generalizing acc with
  | nil => simp [emitUnioned, batchPairs]
  | cons e rest ih =>
    obtain ⟨cid, req, h⟩ := e
    cases hf : features cid with
    | true =>
      simp only [emitUnioned, hf, if_true, batchPairs_append,
        batchPairs_map_resolvedTs, List.foldl_append]
      exact ih (List.foldl batchAccum acc (drainHeap h))
    | false =>
      simp only [emitUnioned, hf, Bool.false_eq_true, if_false, List.nil_append]
      exact ih acc

theorem emitCompat_acc (l : List ((Nat × Nat) × (Nat × Nat))) (acc : Nat × Nat) :
    (emitCompat l acc).1 = (compatPairs (emitCompat l acc).2).foldl compatAccum acc := by
  induction l generalizing acc with
  | nil => simp [emitCompat, compatPairs]
  | cons e rest ih =>
    obtain ⟨⟨cid, region⟩, req, ts⟩ := e
    simp only [emitCompat, compatPairs, List.filterMap_cons]
    exact ih (compatAccum acc (ts, region))

theorem emitUnioned_no_compat (features : Nat → Bool)
    (l : List (Nat × Nat × ResolvedRegionHeap)) (acc : Nat × Nat) :
    compatPairs (emitUnioned features l acc).2 = [] := by
  induction l generalizing acc with
  | nil => simp [emitUnioned, compatPairs]
  | cons e rest ih =>
    obtain ⟨cid, req, h⟩ := e
    cases hf : features cid with
    | true =>
      simp only [emitUnioned, hf, if_true, compatPairs_append,
        compatPairs_map_resolvedTs, List.nil_append]
      exact ih (List.foldl batchAccum acc (drainHeap h))
    | false =>
      simp only [emitUnioned, hf, Bool.false_eq_true, if_false, List.nil_append]
      exact ih acc

theorem emitCompat_no_batch (l : List ((Nat × Nat) × (Nat × Nat))) (acc : Nat × Nat) :
    batchPairs (emitCompat l acc).2 = [] := by
  induction l generalizing acc with
  | nil => simp [emitCompat, batchPairs]
  | cons e rest ih =>
    obtain ⟨⟨cid, region⟩, req, ts⟩ := e
    simp only [emitCompat, batchPairs, List.filterMap_cons]
    exact ih (compatAccum acc (ts, region))

/-- A cycle in which the batched path's smallest timestamp is 10 (region 1)
while the compat path's is 3 (region 2). -/
def c7Adv : Advance :=
  { multiplexing := [], exclusive := [(1, ⟨[⟨1, 10⟩]⟩)],
    compat := [((1, 2), (0, 3))],
    scan_finished := 0, blocked_on_scan := 0, blocked_on_locks := 0,
    min_resolved_ts := 0, min_ts_region_id := 0 }

/-- C7 is false as stated: with one batched connection whose heap holds
region 1 at ts 10 and a compat entry for region 2 at ts 3, both paths produced
nonzero timestamps and the compat path's (3, region 2) is the smallest, but
`emit_resolved_ts` records the batched path's (10, region 1). -/
theorem c7_counterexample_prefers_batched :
    (c7Adv.emit_resolved_ts (fun _ => true)).2
      = [EmitMsg.resolvedTs 1 0 10 [1], EmitMsg.compatEvent 1 2 0 3] ∧
    endpointRecordedMin c7Adv (fun _ => true) = (10, 1) ∧
    ¬ endpointRecordedMin c7Adv (fun _ => true) = (3, 2) :=
  ⟨by decide, by decide, by decide⟩

/-- C7 (amended): after `Advance::emit_resolved_ts`, the recorded
`min_resolved_ts` and `min_ts_region_id` are the minimum timestamp (with a
region id of the batch attaining it) accumulated over the BATCHED messages
actually sent, whenever that accumulator is nonzero; the compat path's
accumulated minimum and region id are used only when the batched path
produced no nonzero timestamp this cycle. -/
theorem c7_amended_recorded_min (a : Advance) (features : Nat → Bool) :
    (a.emit_resolved_ts features).1.min_resolved_ts
      = (if ((batchPairs (a.emit_resolved_ts features).2).foldl batchAccum (0, 0)).1 > 0
         then ((batchPairs (a.emit_resolved_ts features).2).foldl batchAccum (0, 0)).1
         else ((compatPairs (a.emit_resolved_ts features).2).foldl compatAccum (0, 0)).1) ∧
    (a.emit_resolved_ts features).1.min_ts_region_id
      = (if ((batchPairs (a.emit_resolved_ts features).2).foldl batchAccum (0, 0)).1 > 0
         then ((batchPairs (a.emit_resolved_ts features).2).foldl batchAccum (0, 0)).2
         else ((compatPairs (a.emit_resolved_ts features).2).foldl compatAccum (0, 0)).2) := by
  have hb := emitUnioned_acc features
    (a.multiplexing.map (fun x => (x.1.1, x.1.2, x.2))
      ++ a.exclusive.map (fun x => (x.1, 0, x.2))) (0, 0)
  have hc := emitCompat_acc a.compat (0, 0)
  constructor <;>
    simp only [Advance.emit_resolved_ts, batchPairs_append, compatPairs_append,
      emitCompat_no_batch, emitUnioned_no_compat, List.append_nil, List.nil_append] <;>
    rw [← hb, ← hc]

/-- The claimed emission schedule for one heap: each round removes the
`min k n` lowest-ts entries of what remains (starting with `k = 8`, with `k`
multiplied by 4 after each round), producing one `(ts, regions)` batch whose
timestamp is the minimum `resolved_ts` of the removed entries and whose
region list is the removed entries' region ids, until the heap is empty. -/
inductive ScheduleOk : Nat → List ResolvedRegion → List (Nat × List Nat) → Prop where
  | nil (k : Nat) : ScheduleOk k [] []
  | step (k : Nat) (l : List ResolvedRegion) (ts : Nat) (ids : List Nat)
      (rest : List (Nat × List Nat)) (removed keep : List ResolvedRegion) :
      l ≠ [] →
      l.Perm (removed ++ keep) →
      removed.length = min k l.length →
      (∀ x ∈ removed, ∀ y ∈ keep, x.resolved_ts ≤ y.resolved_ts) →
      ids = removed.map ResolvedRegion.region_id →
      removed ≠ [] →
      ts ∈ removed.map ResolvedRegion.resolved_ts →
      (∀ t ∈ removed.map ResolvedRegion.resolved_ts, ts ≤ t) →
      ScheduleOk (k * 4) keep rest →
      ScheduleOk k l ((ts, ids) :: rest)

theorem drainHeapGo_schedule (fuel : Nat) :
    ∀ (bc : Nat) (l : List ResolvedRegion), 1 ≤ bc → l.length ≤ fuel →
    (∀ e ∈ l, e.resolved_ts ≤ tsMax) →
    ScheduleOk bc l (drainHeapGo fuel bc ⟨l⟩) := by
  induction fuel with
  | zero =>
    intro bc l hbc hlen hb
    have hE : l = [] := List.length_eq_zero.mp (Nat.le_zero.mp hlen)
    subst hE
    exact ScheduleOk.nil bc
  | succ n ih =>
    intro bc l hbc hlen hb
    cases l with
    | nil =>
      show ScheduleOk bc [] (drainHeapGo (n + 1) bc ⟨[]⟩)
      exact ScheduleOk.nil bc
    | cons x xs =>
      have hremlen : (popLoop bc (x :: xs)).1.length = min bc (x :: xs).length :=
        popLoop_length bc (x :: xs)
      have hone : 1 ≤ min bc (x :: xs).length :=
        Nat.le_min.mpr ⟨hbc, Nat.succ_le_succ (Nat.zero_le _)⟩
      have hrne : (popLoop bc (x :: xs)).1 ≠ [] := by
        intro hcon
        rw [hcon, List.length_nil] at hremlen
        omega
      have hperm := popLoop_perm bc (x :: xs)
      have hmemrm : ∀ e ∈ (popLoop bc (x :: xs)).1, e ∈ x :: xs := fun e he =>
        hperm.mem_iff.mpr (List.mem_append.mpr (Or.inl he))
      have hmemkp : ∀ e ∈ (popLoop bc (x :: xs)).2, e ∈ x :: xs := fun e he =>
        hperm.mem_iff.mpr (List.mem_append.mpr (Or.inr he))
      have hbound : ∀ t ∈ ((popLoop bc (x :: xs)).1.map ResolvedRegion.resolved_ts),
          t ≤ tsMax := by
        intro t ht
        obtain ⟨e, he, rfl⟩ := List.mem_map.mp ht
        exact hb e (hmemrm e he)
      have hkeeplen : (popLoop bc (x :: xs)).2.length ≤ n := by
        have hlen2 := hperm.length_eq
        rw [List.length_append, hremlen] at hlen2
        omega
      show ScheduleOk bc (x :: xs) (drainHeapGo (n + 1) bc ⟨x :: xs⟩)
      have hun : drainHeapGo (n + 1) bc ⟨x :: xs⟩
          = ((((popLoop bc (x :: xs)).1.map ResolvedRegion.resolved_ts).foldr min tsMax,
              (popLoop bc (x :: xs)).1.map ResolvedRegion.region_id)
            :: drainHeapGo n (bc * 4) ⟨(popLoop bc (x :: xs)).2⟩) := rfl
      rw [hun]
      refine ScheduleOk.step bc (x :: xs) _ _ _
        (popLoop bc (x :: xs)).1 (popLoop bc (x :: xs)).2
        (List.cons_ne_nil x xs) hperm hremlen (popLoop_sep bc (x :: xs)) rfl hrne
        (foldr_min_mem _ _ hbound (by simpa using hrne))
        (fun t ht => foldr_min_le _ _ t ht) ?_
      exact ih (bc * 4) (popLoop bc (x :: xs)).2
        (Nat.le_trans hbc (Nat.le_mul_of_pos_right bc (by omega)))
        hkeeplen (fun e he => hb e (hmemkp e he))

theorem emitUnioned_block (features : Nat → Bool)
    (l : List (Nat × Nat × ResolvedRegionHeap)) (cid req : Nat)
    (h : ResolvedRegionHeap) (hmem : (cid, req, h) ∈ l)
    (hf : features cid = true) :
    ∀ acc, ∃ pre post, (emitUnioned features l acc).2
      = pre ++ (drainHeap h).map (fun b => EmitMsg.resolvedTs cid req b.1 b.2)
          ++ post := by
  induction l with
  | nil => simp at hmem
  | cons e rest ih =>
    intro acc
    rcases List.mem_cons.mp hmem with heq | hmem'
    · subst heq
      refine ⟨[], (emitUnioned features rest
        ((drainHeap h).foldl batchAccum acc)).2, ?_⟩
      simp [emitUnioned, hf]
    · obtain ⟨cid', req', h'⟩ := e
      obtain ⟨pre, post, hdec⟩ := ih hmem'
        (if features cid' then (drainHeap h').foldl batchAccum acc else acc)
      refine ⟨(if features cid' then
          (drainHeap h').map (fun b => EmitMsg.resolvedTs cid' req' b.1 b.2)
        else []) ++ pre, post, ?_⟩
      simp only [emitUnioned, hdec, List.append_assoc]

/-- C8: batched emission schedule.  For a `(conn, request)` heap of an
`Advance` cycle (a multiplexing heap, or an exclusive heap with request id 0)
whose connection has the `BATCH_RESOLVED_TS` feature, the drained batches
follow `ScheduleOk 8`: the first batch pops at most 8 lowest-ts regions, each
subsequent batch allows 4 times more, each batch carries the minimum
timestamp and the region ids of its popped entries, and the heap is drained
to empty; `emit_resolved_ts` sends exactly one `ResolvedTs` message per batch
to that connection, as a contiguous block of the emission. -/
theorem c8_batched_emission_schedule (a : Advance) (features : Nat → Bool)
    (cid req : Nat) (h : ResolvedRegionHeap)
    (hmem : ((cid, req), h) ∈ a.multiplexing ∨ req = 0 ∧ (cid, h) ∈ a.exclusive)
    (hf : features cid = true)
    (hb : ∀ e ∈ h.entries, e.resolved_ts ≤ tsMax) :
    ScheduleOk 8 h.entries (drainHeap h) ∧
    ∃ pre post, (a.emit_resolved_ts features).2
      = pre ++ (drainHeap h).map (fun b => EmitMsg.resolvedTs cid req b.1 b.2)
          ++ post := by
  constructor
  · exact drainHeapGo_schedule h.entries.length 8 h.entries (by omega)
      (Nat.le_refl _) hb
  · have hm : (cid, req, h) ∈ a.multiplexing.map (fun x => (x.1.1, x.1.2, x.2))
        ++ a.exclusive.map (fun x => (x.1, 0, x.2)) := by
      rcases hmem with hmul | ⟨rfl, hexc⟩
      · exact List.mem_append.mpr (Or.inl (List.mem_map.mpr ⟨((cid, req), h), hmul, rfl⟩))
      · exact List.mem_append.mpr (Or.inr (List.mem_map.mpr ⟨(cid, h), hexc, rfl⟩))
    obtain ⟨pre, post, hdec⟩ := emitUnioned_block features _ cid req h hm hf (0, 0)
    refine ⟨pre, post ++ (emitCompat a.compat (0, 0)).2, ?_⟩
    simp only [Advance.emit_resolved_ts, hdec, List.append_assoc]

/-- A one-heap `Advance` used to witness `c8_batched_emission_schedule`. -/
def c8Adv : Advance :=
  { multiplexing := [((1, 2), ⟨[⟨7, 5⟩]⟩)], exclusive := [], compat := [],
    scan_finished := 0, blocked_on_scan := 0, blocked_on_locks := 0,
    min_resolved_ts := 0, min_ts_region_id := 0 }

/-- Concrete witness for `c8_batched_emission_schedule`: a single multiplexing
heap with one entry, on a connection with the batching feature. -/
theorem c8_batched_emission_schedule_witness :
    (((1, 2), (⟨[⟨7, 5⟩]⟩ : ResolvedRegionHeap)) ∈ c8Adv.multiplexing ∨
      (2 = 0 ∧ (1, (⟨[⟨7, 5⟩]⟩ : ResolvedRegionHeap)) ∈ c8Adv.exclusive)) ∧
    (fun _ : Nat => true) 1 = true ∧
    (∀ e ∈ (⟨[⟨7, 5⟩]⟩ : ResolvedRegionHeap).entries, e.resolved_ts ≤ tsMax) ∧
    (ScheduleOk 8 (⟨[⟨7, 5⟩]⟩ : ResolvedRegionHeap).entries
        (drainHeap ⟨[⟨7, 5⟩]⟩) ∧
      ∃ pre post, (c8Adv.emit_resolved_ts (fun _ => true)).2
        = pre ++ (drainHeap ⟨[⟨7, 5⟩]⟩).map
              (fun b => EmitMsg.resolvedTs 1 2 b.1 b.2) ++ post) :=
  ⟨Or.inl (by decide), rfl, by decide,
    c8_batched_emission_schedule c8Adv (fun _ => true) 1 2 ⟨[⟨7, 5⟩]⟩
      (Or.inl (by decide)) rfl (by decide)⟩

/-- Concrete witness for the general part of `c1_resolved_region_heap_pop`:
a one-entry heap with timestamp 5 popped with count 1. -/
theorem c1_resolved_region_heap_pop_witness :
    (∀ e ∈ (⟨[⟨1, 5⟩]⟩ : ResolvedRegionHeap).entries, e.resolved_ts ≤ tsMax) ∧
    ∃ removed : List ResolvedRegion,
      (⟨[⟨1, 5⟩]⟩ : ResolvedRegionHeap).entries.Perm
        (removed ++ ((⟨[⟨1, 5⟩]⟩ : ResolvedRegionHeap).pop 1).2.entries) ∧
      removed.length = min 1 (⟨[⟨1, 5⟩]⟩ : ResolvedRegionHeap).entries.length ∧
      (∀ x ∈ removed, ∀ y ∈ ((⟨[⟨1, 5⟩]⟩ : ResolvedRegionHeap).pop 1).2.entries,
        x.resolved_ts ≤ y.resolved_ts) ∧
      ((⟨[⟨1, 5⟩]⟩ : ResolvedRegionHeap).pop 1).1.2
        = removed.map ResolvedRegion.region_id ∧
      ((removed = [] ∧ ((⟨[⟨1, 5⟩]⟩ : ResolvedRegionHeap).pop 1).1.1 = tsMax) ∨
       (removed ≠ [] ∧
        ((⟨[⟨1, 5⟩]⟩ : ResolvedRegionHeap).pop 1).1.1
          ∈ removed.map ResolvedRegion.resolved_ts ∧
        ∀ t ∈ removed.map ResolvedRegion.resolved_ts,
          ((⟨[⟨1, 5⟩]⟩ : ResolvedRegionHeap).pop 1).1.1 ≤ t)) :=
  ⟨by decide, c1_resolved_region_heap_pop.2 ⟨[⟨1, 5⟩]⟩ 1 (by decide)⟩

/-! ### Endpoint state: connections, delegates, task handlers -/

/-- Association-list lookup, modelling `HashMap::get`. -/
def alookup {κ β : Type} [DecidableEq κ] : List (κ × β) → κ → Option β
  | [], _ => none
  | (k, v) :: rest, key => if k = key then some v else alookup rest key

/-- Association-list insert/replace, modelling `HashMap::insert` (lookup-level
semantics: the new binding shadows and supersedes any previous one). -/
def ainsert {κ β : Type} [DecidableEq κ] (m : List (κ × β)) (k : κ) (v : β) :
    List (κ × β) :=
  (k, v) :: m.filter (fun e => decide (e.1 ≠ k))

/-- Association-list removal, modelling `HashMap::remove`. -/
def aremove {κ β : Type} [DecidableEq κ] (m : List (κ × β)) (k : κ) :
    List (κ × β) :=
  m.filter (fun e => decide (e.1 ≠ k))

theorem alookup_filter_ne {κ β : Type} [DecidableEq κ] (m : List (κ × β))
    (k r : κ) (h : r ≠ k) :
    alookup (m.filter (fun e => decide (e.1 ≠ k))) r = alookup m r := by
  induction m with
  | nil => rfl
  | cons e rest ih =>
    obtain ⟨k', v'⟩ := e
    by_cases hk : k' = k
    · rw [List.filter_cons_of_neg (by simp [hk])]
      rw [ih]
      have hkr : ¬ (k' = r) := fun hc => h (by rw [← hc]; exact hk)
      show alookup rest r = if k' = r then some v' else alookup rest r
      rw [if_neg hkr]
    · rw [List.filter_cons_of_pos (by simp [hk])]
      show (if k' = r then some v' else
          alookup (rest.filter (fun e => decide (e.1 ≠ k))) r)
        = if k' = r then some v' else alookup rest r
      by_cases hr : k' = r
      · rw [if_pos hr, if_pos hr]
      · rw [if_neg hr, if_neg hr, ih]

theorem alookup_filter_self {κ β : Type} [DecidableEq κ] (m : List (κ × β))
    (k : κ) : alookup (m.filter (fun e => decide (e.1 ≠ k))) k = none := by
  induction m with
  | nil => rfl
  | cons e rest ih =>
    obtain ⟨k', v'⟩ := e
    by_cases hk : k' = k
    · rw [List.filter_cons_of_neg (by simp [hk])]
      exact ih
    · rw [List.filter_cons_of_pos (by simp [hk])]
      show (if k' = k then some v' else
          alookup (rest.filter (fun e => decide (e.1 ≠ k))) k) = none
      rw [if_neg hk]
      exact ih

theorem alookup_ainsert_self {κ β : Type} [DecidableEq κ] (m : List (κ × β))
    (k : κ) (v : β) : alookup (ainsert m k v) k = some v := by
  show (if k = k then some v else _) = some v
  rw [if_pos rfl]

theorem alookup_ainsert_other {κ β : Type} [DecidableEq κ] (m : List (κ × β))
    (k r : κ) (v : β) (h : r ≠ k) :
    alookup (ainsert m k v) r = alookup m r := by
  have hkr : ¬ (k = r) := fun hc => h hc.symm
  show (if k = r then some v
      else alookup (m.filter (fun e => decide (e.1 ≠ k))) r) = alookup m r
  rw [if_neg hkr]
  exact alookup_filter_ne m k r h

theorem alookup_aremove_self {κ β : Type} [DecidableEq κ] (m : List (κ × β))
    (k : κ) : alookup (aremove m k) k = none :=
  alookup_filter_self m k

theorem alookup_aremove_other {κ β : Type} [DecidableEq κ] (m : List (κ × β))
    (k r : κ) (h : r ≠ k) : alookup (aremove m k) r = alookup m r :=
  alookup_filter_ne m k r h

/-- Error events pushed to a downstream's sink (`sink_error_event` with the
`cdcpb::Error` variants built in `Endpoint::on_register`); `delegateError`
stands for `Delegate::subscribe`'s structured error turned into an event. -/
inductive ErrKind where
  | clusterIdMismatch (current request : Nat)
  | compatibility
  | serverBusy
  | regionNotFound (region_id : Nat)
  | duplicateRequest (region_id : Nat)
  | delegateError (code : Nat)
deriving Repr, DecidableEq

/-- Observable effects of the endpoint's task handlers: an error event pushed
to a downstream's sink, an incremental scan spawned on the worker pool, a
delegate-level deregistration (`Delegate::stop` notifying its downstreams
with the error), and a raft-observer unsubscription
(`CdcObserver::unsubscribe_region`). -/
inductive EventOut where
  | sinkError (downstream_id region_id : Nat) (k : ErrKind)
  | spawnScan (region_id conn_id req_id downstream_id : Nat)
  | delegateDereg (region_id observe_id err : Nat)
  | unsubscribeRegion (region_id observe_id : Nat)
deriving Repr, DecidableEq

/-- Modelled from the spec: the per-subscription state a `Delegate` keeps for
one `Downstream` (delegate.rs is not part of the excerpt) — its unique id,
owning connection and request, and the abstract outcome of its incremental
scan (`scan_ok` false means `Delegate::finish_scan_locks` reports it as
failed to initialize, with error code `scan_err`). -/
structure DownstreamEntry where
  id : Nat
  conn_id : Nat
  req_id : Nat
  scan_ok : Bool
  scan_err : Nat
deriving Repr, DecidableEq

/-- Modelled from the spec: per-region `Delegate` state (delegate.rs is not
part of the excerpt) — the current observe epoch id (`handle.id`), its
downstreams, the failed flag, and abstract effect logs: `applied` records the
ids of mutation batches folded into the lock tracker, `installed_locks`
records the scanned locks installed by `finish_scan_locks`. -/
structure Delegate where
  observe_id : Nat
  downstreams : List DownstreamEntry
  failed : Bool
  applied : List Nat
  installed_locks : Option (List (Nat × Nat))
deriving Repr, DecidableEq

/-- Modelled from the spec: `Delegate::new` with a fresh observe id. -/
def Delegate.new (observe_id : Nat) : Delegate :=
  { observe_id := observe_id, downstreams := [], failed := false,
    applied := [], installed_locks := none }

/-- Modelled from the spec: a client `Conn` (service.rs is not part of the
excerpt) — the two feature flags the endpoint consults and the subscription
map from `(request_id, region_id)` to downstream id (the spec's two maps,
multiplexed and legacy, merged: legacy entries are those with request id 0). -/
structure Conn where
  has_batch_feature : Bool
  has_validate_cluster_id : Bool
  subs : List ((Nat × Nat) × Nat)
deriving Repr, DecidableEq

/-- Modelled from the spec: `Conn::get_downstream`. -/
def Conn.get_downstream (c : Conn) (req region : Nat) : Option Nat :=
  alookup c.subs (req, region)

/-- Modelled from the spec: `Conn::subscribe` — when the `(request, region)`
pair is already subscribed it returns the existing downstream id and does not
overwrite; otherwise it records the new downstream id and returns none. -/
def Conn.subscribe (c : Conn) (req region did : Nat) : Option Nat × Conn :=
  match alookup c.subs (req, region) with
  | some old => (some old, c)
  | none => (none, { c with subs := ainsert c.subs (req, region) did })

/-- Modelled from the spec: `Conn::unsubscribe` — removes and returns the
downstream id subscribed at `(request, region)`, if any. -/
def Conn.unsubscribe (c : Conn) (req region : Nat) : Option Nat × Conn :=
  match alookup c.subs (req, region) with
  | some did => (some did, { c with subs := aremove c.subs (req, region) })
  | none => (none, c)

/-- Modelled from the spec: `Conn::unsubscribe_request` — removes every
subscription with the given request id, returning the removed
`(region_id, downstream_id)` pairs. -/
def Conn.unsubscribe_request (c : Conn) (req : Nat) :
    List (Nat × Nat) × Conn :=
  (c.subs.filterMap (fun e => if e.1.1 = req then some (e.1.2, e.2) else none),
   { c with subs := c.subs.filter (fun e => decide (e.1.1 ≠ req)) })

/-- The endpoint state the claims are about: `capture_regions`,
`connections`, the scan-task counter (`scan_task_counter`) with its
admission limit (`config.incremental_scan_concurrency_limit`), the regions
for which `store_meta` has a local reader, and the raft observer's
region-to-observe-id subscriptions. -/
structure EndpointState where
  cluster_id : Nat
  capture_regions : List (Nat × Delegate)
  connections : List (Nat × Conn)
  scan_task_count : Nat
  scan_limit : Nat
  readers : List Nat
  observed : List (Nat × Nat)
deriving Repr, DecidableEq

/-- The `ChangeDataRequest` fields `on_register` reads.  `kv_api_ok`
abstracts `validate_kv_api(request.kv_api, api_version)` (service.rs is not
part of the excerpt; modelled from the spec's API-kind compatibility
check). -/
structure ChangeDataRequest where
  region_id : Nat
  request_id : Nat
  cluster_id : Nat
  kv_api_ok : Bool
  checkpoint_ts : Nat
deriving Repr, DecidableEq

/-- The `Downstream` argument of `Task::Register`.  `sub_ok` abstracts
whether `Delegate::subscribe` accepts it (modelled from the spec: the
region-epoch check), with `sub_err` the structured error code it reports
otherwise; `scan_ok`/`scan_err` feed `finish_scan_locks` later. -/
structure DownstreamReq where
  id : Nat
  conn_id : Nat
  sub_ok : Bool
  sub_err : Nat
  scan_ok : Bool
  scan_err : Nat
deriving Repr, DecidableEq

/-- `Endpoint::on_register`.  `fresh_oid` is the observe id minted by
`Delegate::new` when a new delegate is created.  The handler mirrors the
source's check order: connection lookup (a missing connection drops the task
silently), cluster-id check (feature-gated), API-kind check, admission
control on the scan-task counter, store-reader lookup, duplicate-subscription
check, delegate creation or reuse, `Delegate::subscribe` (rolling back the
connection's map and a fresh delegate on failure), raft-observer subscription
for a new delegate, and finally spawning the incremental scan (which holds
the scan-task counter increment until it finishes). -/
def on_register (s : EndpointState) (request : ChangeDataRequest)
    (d : DownstreamReq) (fresh_oid : Nat) : EndpointState × List EventOut :=
  match alookup s.connections d.conn_id with
  | none => (s, [])
  | some conn =>
    if conn.has_validate_cluster_id ∧ s.cluster_id ≠ request.cluster_id then
      (s, [.sinkError d.id request.region_id
            (.clusterIdMismatch s.cluster_id request.cluster_id)])
    else if ¬ request.kv_api_ok then
      (s, [.sinkError d.id request.region_id .compatibility])
    else if s.scan_limit ≤ s.scan_task_count then
      (s, [.sinkError d.id request.region_id .serverBusy])
    else if ¬ request.region_id ∈ s.readers then
      (s, [.sinkError d.id request.region_id (.regionNotFound request.region_id)])
    else
      match (conn.subscribe request.request_id request.region_id d.id).1 with
      | some _ =>
        (s, [.sinkError d.id request.region_id
              (.duplicateRequest request.region_id)])
      | none =>
        let conn' := (conn.subscribe request.request_id request.region_id d.id).2
        let entry : DownstreamEntry :=
          ⟨d.id, d.conn_id, request.request_id, d.scan_ok, d.scan_err⟩
        match alookup s.capture_regions request.region_id with
        | some delegate =>
          if d.sub_ok then
            let delegate' :=
              { delegate with downstreams := delegate.downstreams ++ [entry] }
            let s' := { s with
              capture_regions := ainsert s.capture_regions request.region_id delegate',
              connections := ainsert s.connections d.conn_id conn',
              scan_task_count := s.scan_task_count + 1 }
            (s', [.spawnScan request.region_id d.conn_id request.request_id d.id])
          else
            (s, [.sinkError d.id request.region_id (.delegateError d.sub_err)])
        | none =>
          if d.sub_ok then
            let delegate' := { Delegate.new fresh_oid with downstreams := [entry] }
            let s' := { s with
              capture_regions := ainsert s.capture_regions request.region_id delegate',
              connections := ainsert s.connections d.conn_id conn',
              scan_task_count := s.scan_task_count + 1,
              observed := (request.region_id, fresh_oid) :: s.observed }
            (s', [.spawnScan request.region_id d.conn_id request.request_id d.id])
          else
            (s, [.sinkError d.id request.region_id (.delegateError d.sub_err)])

/-- `Endpoint::deregister_downstream`: no-op when the region has no delegate;
otherwise `Delegate::unsubscribe` (modelled from the spec: removes the
downstream and reports whether none remain), and when the last downstream
left, the delegate is removed and the raft observation unsubscribed. -/
def deregister_downstream (s : EndpointState) (region_id did : Nat)
    (_err : Option Nat) : EndpointState × List EventOut :=
  match alookup s.capture_regions region_id with
  | none => (s, [])
  | some delegate =>
    let remaining := delegate.downstreams.filter (fun e => decide (e.id ≠ did))
    if remaining.isEmpty then
      ({ s with capture_regions := aremove s.capture_regions region_id },
       [.unsubscribeRegion region_id delegate.observe_id])
    else
      let delegate' := { delegate with downstreams := remaining }
      let s' := { s with
        capture_regions := ainsert s.capture_regions region_id delegate' }
      (s', [])

/-- The `Deregister::Delegate` arm of `Endpoint::on_deregister` (also invoked
by `on_multi_batch` and `finish_scan_locks`): a vacant entry or a mismatched
observe id is a no-op; otherwise the delegate is removed, stopped with the
error (`delegateDereg`), its `(request, region)` pairs are unsubscribed from
every connection, and the raft observation is unsubscribed. -/
def deregister_delegate (s : EndpointState) (region_id observe_id err : Nat) :
    EndpointState × List EventOut :=
  match alookup s.capture_regions region_id with
  | none => (s, [])
  | some delegate =>
    if delegate.observe_id ≠ observe_id then (s, [])
    else
      let s' := { s with
        capture_regions := aremove s.capture_regions region_id,
        connections := s.connections.map (fun kv =>
          (kv.1, delegate.downstreams.foldl
            (fun c e => (c.unsubscribe e.req_id region_id).2) kv.2)) }
      (s', [.delegateDereg region_id observe_id err,
            .unsubscribeRegion region_id delegate.observe_id])

/-- The `Deregister` task variants.  Error payloads are abstract codes; the
`region` and `request` variants' "region not found" error is code 0. -/
inductive Deregister where
  | conn (conn_id : Nat)
  | request (conn_id request_id : Nat)
  | region (conn_id request_id region_id : Nat)
  | downstream (conn_id request_id region_id downstream_id : Nat)
      (err : Option Nat)
  | delegate (region_id observe_id err : Nat)
deriving Repr, DecidableEq

/-- `Endpoint::on_deregister`.  Returns `none` where the source `unwrap`s a
missing connection (a panic); every other path returns the new state and the
emitted events.  The `Downstream` variant checks the downstream id against
the currently-subscribed one (ABA protection) and is a no-op on mismatch;
the `Delegate` variant likewise checks the observe id. -/
def on_deregister (s : EndpointState) : Deregister → Option (EndpointState × List EventOut)
  | .conn conn_id =>
    match alookup s.connections conn_id with
    | none => none
    | some conn =>
      let s0 : EndpointState := { s with connections := aremove s.connections conn_id }
      some (conn.subs.foldl (fun acc e =>
        let r := deregister_downstream acc.1 e.1.2 e.2 none
        (r.1, acc.2 ++ r.2)) (s0, []))
  | .request conn_id request_id =>
    match alookup s.connections conn_id with
    | none => none
    | some conn =>
      let u := conn.unsubscribe_request request_id
      let s0 : EndpointState := { s with connections := ainsert s.connections conn_id u.2 }
      some (u.1.foldl (fun acc e =>
        let r := deregister_downstream acc.1 e.1 e.2 (some 0)
        (r.1, acc.2 ++ r.2)) (s0, []))
  | .region conn_id request_id region_id =>
    match alookup s.connections conn_id with
    | none => none
    | some conn =>
      let u := conn.unsubscribe request_id region_id
      let s0 : EndpointState := { s with connections := ainsert s.connections conn_id u.2 }
      match u.1 with
      | some did => some (deregister_downstream s0 region_id did (some 0))
      | none => some (s0, [])
  | .downstream conn_id request_id region_id downstream_id err =>
    match alookup s.connections conn_id with
    | none => some (s, [])
    | some conn =>
      match conn.get_downstream request_id region_id with
      | some new_did =>
        if new_did = downstream_id then
          let u := conn.unsubscribe request_id region_id
          let s0 : EndpointState :=
            { s with connections := ainsert s.connections conn_id u.2 }
          some (deregister_downstream s0 region_id downstream_id err)
        else some (s, [])
      | none => some (s, [])
  | .delegate region_id observe_id err =>
    some (deregister_delegate s region_id observe_id err)

/-- A `CmdBatch` with the delegate-level apply outcome abstracted:
`apply_ok` stands for `Delegate::on_batch` succeeding on this batch, and
`err` for the error it returns otherwise (modelled from the spec: a
batch-apply failure is a hard per-region failure). -/
structure CmdBatch where
  region_id : Nat
  batch_id : Nat
  apply_ok : Bool
  err : Nat
deriving Repr, DecidableEq

/-- One iteration of the `for batch in multi` loop of
`Endpoint::on_multi_batch`: skip if no delegate or the delegate has failed;
apply the batch on success; on failure mark the delegate failed and run a
delegate-level deregistration carrying the batch's error. -/
def multiBatchStep (s : EndpointState) (b : CmdBatch) :
    EndpointState × List EventOut :=
  match alookup s.capture_regions b.region_id with
  | none => (s, [])
  | some delegate =>
    if delegate.failed then (s, [])
    else if b.apply_ok then
      let delegate' := { delegate with applied := delegate.applied ++ [b.batch_id] }
      let s' := { s with
        capture_regions := ainsert s.capture_regions b.region_id delegate' }
      (s', [])
    else
      let delegate' := { delegate with failed := true }
      let s1 := { s with
        capture_regions := ainsert s.capture_regions b.region_id delegate' }
      deregister_delegate s1 b.region_id delegate.observe_id b.err

/-- `Endpoint::on_multi_batch`: fold `multiBatchStep` over the batch list. -/
def on_multi_batch (s : EndpointState) (multi : List CmdBatch) :
    EndpointState × List EventOut :=
  multi.foldl (fun acc b =>
    let r := multiBatchStep acc.1 b
    (r.1, acc.2 ++ r.2)) (s, [])

/-- `Endpoint::finish_scan_locks`.  A vacant region or a mismatched observe
id is a no-op.  `Delegate::finish_scan_locks` is modelled from the spec: it
installs the scanned locks into the lock tracker and reports the downstreams
that failed to finish initializing (entries with `scan_ok = false`), each
with its own error; the endpoint then runs an individual
`Deregister::Downstream` for each failure. -/
def finish_scan_locks (s : EndpointState) (observe_id region_id : Nat)
    (locks : List (Nat × Nat)) : EndpointState × List EventOut :=
  match alookup s.capture_regions region_id with
  | none => (s, [])
  | some delegate =>
    if delegate.observe_id ≠ observe_id then (s, [])
    else
      let delegate' := { delegate with installed_locks := some locks }
      let fails := delegate.downstreams.filterMap (fun e =>
        if e.scan_ok then none else some (e.conn_id, e.req_id, e.id, e.scan_err))
      let s0 : EndpointState :=
        { s with capture_regions := ainsert s.capture_regions region_id delegate' }
      fails.foldl (fun acc f =>
        match on_deregister acc.1
            (.downstream f.1 f.2.1 region_id f.2.2.1 (some f.2.2.2)) with
        | some r => (r.1, acc.2 ++ r.2)
        | none => acc) (s0, [])

/-! ### Claims about the endpoint task handlers -/

/-- C2: stale-token messages are no-ops.  A `Deregister::Downstream` whose
downstream id differs from the one currently subscribed at that
(conn, request, region), a `Deregister::Delegate` whose observe id differs
from the live delegate's, and a `FinishScanLocks` whose observe id differs
from the live delegate's, each leave the endpoint state unchanged and emit
nothing. -/
theorem c2_stale_tokens_noop (s : EndpointState) :
    (∀ conn_id request_id region_id did err conn new_did,
      alookup s.connections conn_id = some conn →
      conn.get_downstream request_id region_id = some new_did →
      new_did ≠ did →
      on_deregister s (.downstream conn_id request_id region_id did err)
        = some (s, [])) ∧
    (∀ region_id observe_id err delegate,
      alookup s.capture_regions region_id = some delegate →
      delegate.observe_id ≠ observe_id →
      on_deregister s (.delegate region_id observe_id err) = some (s, [])) ∧
    (∀ observe_id region_id locks delegate,
      alookup s.capture_regions region_id = some delegate →
      delegate.observe_id ≠ observe_id →
      finish_scan_locks s observe_id region_id locks = (s, [])) := by
  refine ⟨?_, ?_, ?_⟩
  · intro conn_id request_id region_id did err conn new_did hconn hget hne
    simp only [on_deregister, hconn, hget, if_neg hne]
  · intro region_id observe_id err delegate hdel hne
    simp only [on_deregister, deregister_delegate, hdel, if_pos hne]
  · intro observe_id region_id locks delegate hdel hne
    simp only [finish_scan_locks, hdel, if_pos hne]

/-- A connection subscribed at request 0, region 7 with downstream id 5. -/
def c2Conn : Conn :=
  { has_batch_feature := true, has_validate_cluster_id := false,
    subs := [((0, 7), 5)] }

/-- A live delegate for region 7 with observe id 42. -/
def c2Del : Delegate :=
  { observe_id := 42, downstreams := [⟨5, 1, 0, true, 0⟩], failed := false,
    applied := [], installed_locks := none }

/-- An endpoint state with one connection and one delegate. -/
def c2St : EndpointState :=
  { cluster_id := 0, capture_regions := [(7, c2Del)],
    connections := [(1, c2Conn)], scan_task_count := 0, scan_limit := 4,
    readers := [7], observed := [(7, 42)] }

/-- Concrete witness for `c2_stale_tokens_noop`: a downstream deregistration
with the wrong downstream id (99 instead of 5), a delegate deregistration
with the wrong observe id (123 instead of 42), and a stale FinishScanLocks,
all no-ops. -/
theorem c2_stale_tokens_noop_witness :
    on_deregister c2St (.downstream 1 0 7 99 none) = some (c2St, []) ∧
    on_deregister c2St (.delegate 7 123 0) = some (c2St, []) ∧
    finish_scan_locks c2St 123 7 [] = (c2St, []) :=
  ⟨(c2_stale_tokens_noop c2St).1 1 0 7 99 none c2Conn 5 (by decide) (by decide)
      (by decide),
   (c2_stale_tokens_noop c2St).2.1 7 123 0 c2Del (by decide) (by decide),
   (c2_stale_tokens_noop c2St).2.2 123 7 [] c2Del (by decide) (by decide)⟩

/-- C3: registration uniqueness.  If the (conn, request, region) triple is
already subscribed on the connection, a Register leaves the state unchanged
and spawns no scan (it cannot succeed); and when every earlier gate passes
(connection exists, cluster id ok, API kind ok, admission ok, region has a
reader), the duplicate Register is rejected with exactly a duplicate-request
error event to the new downstream and no state change. -/
theorem c3_registration_uniqueness (s : EndpointState)
    (request : ChangeDataRequest) (d : DownstreamReq) (fresh_oid : Nat) :
    (∀ conn old,
      alookup s.connections d.conn_id = some conn →
      conn.get_downstream request.request_id request.region_id = some old →
      (on_register s request d fresh_oid).1 = s ∧
      ∀ rid cid rq did,
        EventOut.spawnScan rid cid rq did ∉ (on_register s request d fresh_oid).2) ∧
    (∀ conn old,
      alookup s.connections d.conn_id = some conn →
      ¬ (conn.has_validate_cluster_id ∧ s.cluster_id ≠ request.cluster_id) →
      request.kv_api_ok →
      s.scan_task_count < s.scan_limit →
      request.region_id ∈ s.readers →
      conn.get_downstream request.request_id request.region_id = some old →
      on_register s request d fresh_oid
        = (s, [.sinkError d.id request.region_id
                (.duplicateRequest request.region_id)])) := by
  constructor
  · intro conn old hconn hget
    have hget' : alookup conn.subs (request.request_id, request.region_id)
        = some old := hget
    simp only [on_register, hconn, Conn.subscribe, hget']
    split_ifs <;>
      exact ⟨rfl, by intro rid cid rq did hmem; simp at hmem⟩
  · intro conn old hconn h1 h2 h3 h4 hget
    have hget' : alookup conn.subs (request.request_id, request.region_id)
        = some old := hget
    simp only [on_register, hconn, Conn.subscribe, hget']
    rw [if_neg h1, if_neg (fun hc => hc h2), if_neg (Nat.not_le.mpr h3),
      if_neg (fun hc => hc h4)]

/-- A connection already subscribed at request 0, region 7 (downstream 5). -/
def c3Conn : Conn :=
  { has_batch_feature := false, has_validate_cluster_id := false,
    subs := [((0, 7), 5)] }

/-- An endpoint state in which region 7 has a reader and conn 1 is open. -/
def c3St : EndpointState :=
  { cluster_id := 0, capture_regions := [], connections := [(1, c3Conn)],
    scan_task_count := 0, scan_limit := 4, readers := [7], observed := [] }

/-- Concrete witness for `c3_registration_uniqueness`: a second Register for
the already-subscribed triple (conn 1, request 0, region 7) is rejected with
a duplicate-request error and no state change. -/
theorem c3_registration_uniqueness_witness :
    c3Conn.get_downstream 0 7 = some 5 ∧
    on_register c3St ⟨7, 0, 0, true, 0⟩ ⟨6, 1, true, 0, true, 0⟩ 9
      = (c3St, [.sinkError 6 7 (.duplicateRequest 7)]) :=
  ⟨by decide,
   (c3_registration_uniqueness c3St ⟨7, 0, 0, true, 0⟩ ⟨6, 1, true, 0, true, 0⟩ 9).2
      c3Conn 5 (by decide) (by decide) (by decide) (by decide) (by decide)
      (by decide)⟩

/-- C4: admission control.  When a Register is processed while the pending
scan-task count has reached `incremental_scan_concurrency_limit` (and the
connection, cluster-id and API-kind gates pass), it is rejected with a
server-busy error sent to the new downstream and no state change; and
concretely with limit 1, a first Register succeeds (spawning its scan and
raising the counter to 1) and, while that scan is pending, a second Register
for a different region is rejected the same way, creating no delegate. -/
theorem c4_admission_control :
    (∀ s request d fresh_oid conn,
      alookup s.connections d.conn_id = some conn →
      ¬ (conn.has_validate_cluster_id ∧ s.cluster_id ≠ request.cluster_id) →
      request.kv_api_ok →
      s.scan_limit ≤ s.scan_task_count →
      on_register s request d fresh_oid
        = (s, [.sinkError d.id request.region_id .serverBusy])) ∧
    ((on_register ⟨0, [], [(1, ⟨false, false, []⟩)], 0, 1, [10, 20], []⟩
        ⟨10, 0, 0, true, 0⟩ ⟨100, 1, true, 0, true, 0⟩ 7).2
      = [.spawnScan 10 1 0 100] ∧
     (on_register ⟨0, [], [(1, ⟨false, false, []⟩)], 0, 1, [10, 20], []⟩
        ⟨10, 0, 0, true, 0⟩ ⟨100, 1, true, 0, true, 0⟩ 7).1.scan_task_count = 1 ∧
     on_register
        (on_register ⟨0, [], [(1, ⟨false, false, []⟩)], 0, 1, [10, 20], []⟩
          ⟨10, 0, 0, true, 0⟩ ⟨100, 1, true, 0, true, 0⟩ 7).1
        ⟨20, 0, 0, true, 0⟩ ⟨101, 1, true, 0, true, 0⟩ 8
      = ((on_register ⟨0, [], [(1, ⟨false, false, []⟩)], 0, 1, [10, 20], []⟩
          ⟨10, 0, 0, true, 0⟩ ⟨100, 1, true, 0, true, 0⟩ 7).1,
         [.sinkError 101 20 .serverBusy]) ∧
     alookup (on_register ⟨0, [], [(1, ⟨false, false, []⟩)], 0, 1, [10, 20], []⟩
        ⟨10, 0, 0, true, 0⟩ ⟨100, 1, true, 0, true, 0⟩ 7).1.capture_regions 20
      = none) := by
  constructor
  · intro s request d fresh_oid conn hconn h1 h2 h3
    simp only [on_register, hconn]
    rw [if_neg h1, if_neg (fun hc => hc h2), if_pos h3]
  · exact ⟨by decide, by decide, by decide, by decide⟩

/-- Concrete witness for the general part of `c4_admission_control`: with
limit 0 every Register is rejected as server-busy. -/
theorem c4_admission_control_witness :
    alookup (⟨0, [], [(2, ⟨false, false, []⟩)], 3, 2, [], []⟩ : EndpointState).connections 2
      = some ⟨false, false, []⟩ ∧
    on_register ⟨0, [], [(2, ⟨false, false, []⟩)], 3, 2, [], []⟩
      ⟨11, 0, 0, true, 0⟩ ⟨55, 2, true, 0, true, 0⟩ 1
      = (⟨0, [], [(2, ⟨false, false, []⟩)], 3, 2, [], []⟩,
         [.sinkError 55 11 .serverBusy]) :=
  ⟨by decide,
   c4_admission_control.1 ⟨0, [], [(2, ⟨false, false, []⟩)], 3, 2, [], []⟩
     ⟨11, 0, 0, true, 0⟩ ⟨55, 2, true, 0, true, 0⟩ 1 ⟨false, false, []⟩
     (by decide) (by decide) (by decide) (by decide)⟩

/-- C10: a Register task naming a connection that is not open is dropped
silently: no event is pushed to any sink and the endpoint state is entirely
unchanged. -/
theorem c10_register_unknown_conn_noop (s : EndpointState)
    (request : ChangeDataRequest) (d : DownstreamReq) (fresh_oid : Nat)
    (h : alookup s.connections d.conn_id = none) :
    on_register s request d fresh_oid = (s, []) := by
  simp only [on_register, h]

/-- Concrete witness for `c10_register_unknown_conn_noop`: registering on a
state with no open connections. -/
theorem c10_register_unknown_conn_noop_witness :
    alookup (⟨0, [], [], 0, 4, [], []⟩ : EndpointState).connections 1 = none ∧
    on_register ⟨0, [], [], 0, 4, [], []⟩ ⟨5, 0, 0, true, 0⟩
      ⟨9, 1, true, 0, true, 0⟩ 77 = (⟨0, [], [], 0, 4, [], []⟩, []) :=
  ⟨rfl, c10_register_unknown_conn_noop ⟨0, [], [], 0, 4, [], []⟩
    ⟨5, 0, 0, true, 0⟩ ⟨9, 1, true, 0, true, 0⟩ 77 rfl⟩

theorem deregister_delegate_other (s : EndpointState)
    (region_id observe_id err r : Nat) (h : r ≠ region_id) :
    alookup (deregister_delegate s region_id observe_id err).1.capture_regions r
      = alookup s.capture_regions r := by
  cases hdel : alookup s.capture_regions region_id with
  | none => simp only [deregister_delegate, hdel]
  | some delegate =>
    simp only [deregister_delegate, hdel]
    by_cases hne : delegate.observe_id ≠ observe_id
    · rw [if_pos hne]
    · rw [if_neg hne]
      exact alookup_aremove_other s.capture_regions region_id r h

theorem multiBatchStep_other (s : EndpointState) (b : CmdBatch) (r : Nat)
    (h : r ≠ b.region_id) :
    alookup (multiBatchStep s b).1.capture_regions r
      = alookup s.capture_regions r := by
  cases hdel : alookup s.capture_regions b.region_id with
  | none => simp only [multiBatchStep, hdel]
  | some delegate =>
    simp only [multiBatchStep, hdel]
    by_cases hf : delegate.failed = true
    · rw [if_pos hf]
    · rw [if_neg hf]
      by_cases hok : b.apply_ok = true
      · rw [if_pos hok]
        exact alookup_ainsert_other s.capture_regions b.region_id r _ h
      · rw [if_neg hok]
        rw [deregister_delegate_other _ _ _ _ _ h]
        exact alookup_ainsert_other s.capture_regions b.region_id r _ h

theorem on_multi_batch_state (s : EndpointState) (multi : List CmdBatch) :
    (on_multi_batch s multi).1
      = multi.foldl (fun st b => (multiBatchStep st b).1) s := by
  suffices hgen : ∀ acc : EndpointState × List EventOut,
      (multi.foldl (fun acc b =>
        let r := multiBatchStep acc.1 b
        (r.1, acc.2 ++ r.2)) acc).1
        = multi.foldl (fun st b => (multiBatchStep st b).1) acc.1 by
    exact hgen (s, [])
  induction multi with
  | nil => intro acc; rfl
  | cons b rest ih => intro acc; exact ih _

theorem runBatches_other (multi : List CmdBatch) (s : EndpointState) (r : Nat)
    (h : ∀ b ∈ multi, b.region_id ≠ r) :
    alookup (multi.foldl (fun st b => (multiBatchStep st b).1) s).capture_regions r
      = alookup s.capture_regions r := by
  induction multi generalizing s with
  | nil => rfl
  | cons b rest ih =>
    rw [List.foldl_cons,
      ih _ (fun b' hb' => h b' (List.mem_cons_of_mem _ hb')),
      multiBatchStep_other s b r
        (fun hc => (h b (List.mem_cons_self b rest)) hc.symm)]

theorem multiBatchStep_ok (s : EndpointState) (b : CmdBatch)
    (delegate : Delegate)
    (hdel : alookup s.capture_regions b.region_id = some delegate)
    (hf : delegate.failed = false) (hok : b.apply_ok = true) :
    alookup (multiBatchStep s b).1.capture_regions b.region_id
      = some { delegate with applied := delegate.applied ++ [b.batch_id] } ∧
    (multiBatchStep s b).2 = [] ∧
    (multiBatchStep s b).1.connections = s.connections := by
  simp only [multiBatchStep, hdel]
  rw [if_neg (by simp [hf]), if_pos hok]
  exact ⟨alookup_ainsert_self _ _ _, rfl, rfl⟩

theorem multiBatchStep_fail (s : EndpointState) (b : CmdBatch)
    (delegate : Delegate)
    (hdel : alookup s.capture_regions b.region_id = some delegate)
    (hf : delegate.failed = false) (hok : b.apply_ok = false) :
    alookup (multiBatchStep s b).1.capture_regions b.region_id = none ∧
    (multiBatchStep s b).2
      = [.delegateDereg b.region_id delegate.observe_id b.err,
         .unsubscribeRegion b.region_id delegate.observe_id] := by
  simp only [multiBatchStep, hdel]
  rw [if_neg (by simp [hf]), if_neg (by simp [hok])]
  simp only [deregister_delegate, alookup_ainsert_self]
  rw [if_neg (fun hc : ({ delegate with failed := true } : Delegate).observe_id
      ≠ delegate.observe_id => hc rfl)]
  exact ⟨alookup_aremove_self _ _, rfl⟩

theorem multiBatchStep_skip (s : EndpointState) (b : CmdBatch)
    (delegate : Delegate)
    (hdel : alookup s.capture_regions b.region_id = some delegate)
    (hf : delegate.failed = true) :
    multiBatchStep s b = (s, []) := by
  simp only [multiBatchStep, hdel]
  rw [if_pos hf]

/-- C5: MultiBatch isolation.  (i) A batch whose apply fails, hitting a live
non-failed delegate, removes exactly that region's delegate through a
delegate-level deregistration carrying the batch's error (and the raft
unsubscription), leaving every other region's delegate untouched.  (ii) A
batch whose apply succeeds updates only its own delegate (appending the batch
to its applied log), emitting nothing.  (iii) Once a delegate's failed flag
is set, a batch addressed to it is skipped entirely: the state and the event
log are unchanged.  (iv) Across a whole MultiBatch task, a region named only
by one successful batch ends with exactly that batch applied to its delegate,
regardless of what the other batches (including failing ones) do to other
regions. -/
theorem c5_multibatch_isolation :
    (∀ s b delegate,
      alookup s.capture_regions b.region_id = some delegate →
      delegate.failed = false → b.apply_ok = false →
      alookup (multiBatchStep s b).1.capture_regions b.region_id = none ∧
      (multiBatchStep s b).2
        = [.delegateDereg b.region_id delegate.observe_id b.err,
           .unsubscribeRegion b.region_id delegate.observe_id] ∧
      ∀ r, r ≠ b.region_id →
        alookup (multiBatchStep s b).1.capture_regions r
          = alookup s.capture_regions r) ∧
    (∀ s b delegate,
      alookup s.capture_regions b.region_id = some delegate →
      delegate.failed = false → b.apply_ok = true →
      alookup (multiBatchStep s b).1.capture_regions b.region_id
        = some { delegate with applied := delegate.applied ++ [b.batch_id] } ∧
      (multiBatchStep s b).2 = [] ∧
      (multiBatchStep s b).1.connections = s.connections ∧
      ∀ r, r ≠ b.region_id →
        alookup (multiBatchStep s b).1.capture_regions r
          = alookup s.capture_regions r) ∧
    (∀ s b delegate,
      alookup s.capture_regions b.region_id = some delegate →
      delegate.failed = true →
      multiBatchStep s b = (s, [])) ∧
    (∀ s (pre post : List CmdBatch) b delegate,
      (∀ b' ∈ pre, b'.region_id ≠ b.region_id) →
      (∀ b' ∈ post, b'.region_id ≠ b.region_id) →
      alookup s.capture_regions b.region_id = some delegate →
      delegate.failed = false → b.apply_ok = true →
      alookup (on_multi_batch s (pre ++ b :: post)).1.capture_regions b.region_id
        = some { delegate with applied := delegate.applied ++ [b.batch_id] }) := by
  refine ⟨?_, ?_, ?_, ?_⟩
  · intro s b delegate hdel hf hok
    obtain ⟨h1, h2⟩ := multiBatchStep_fail s b delegate hdel hf hok
    exact ⟨h1, h2, fun r hr => multiBatchStep_other s b r hr⟩
  · intro s b delegate hdel hf hok
    obtain ⟨h1, h2, h3⟩ := multiBatchStep_ok s b delegate hdel hf hok
    exact ⟨h1, h2, h3, fun r hr => multiBatchStep_other s b r hr⟩
  · intro s b delegate hdel hf
    exact multiBatchStep_skip s b delegate hdel hf
  · intro s pre post b delegate hpre hpost hdel hf hok
    rw [on_multi_batch_state, List.foldl_append, List.foldl_cons]
    have hsp : alookup (pre.foldl (fun st b => (multiBatchStep st b).1) s).capture_regions
        b.region_id = some delegate := by
      rw [runBatches_other pre s b.region_id hpre]
      exact hdel
    rw [runBatches_other post _ b.region_id hpost]
    exact (multiBatchStep_ok _ b delegate hsp hf hok).1

/-- A live delegate for region 3 and a failed one for region 4. -/
def c5St : EndpointState :=
  { cluster_id := 0,
    capture_regions :=
      [(3, { observe_id := 30, downstreams := [⟨5, 1, 0, true, 0⟩],
             failed := false, applied := [], installed_locks := none }),
       (4, { observe_id := 40, downstreams := [⟨6, 1, 0, true, 0⟩],
             failed := true, applied := [], installed_locks := none })],
    connections := [(1, ⟨false, false, [((0, 3), 5), ((0, 4), 6)]⟩)],
    scan_task_count := 0, scan_limit := 4, readers := [3, 4], observed := [] }

/-- Concrete witness for `c5_multibatch_isolation`, exercising all four
parts on `c5St`: a failing batch for region 3, a successful batch for
region 3, a skipped batch for the failed region 4, and a three-batch
MultiBatch whose middle batch applies to region 3. -/
theorem c5_multibatch_isolation_witness :
    (alookup (multiBatchStep c5St ⟨3, 11, false, 9⟩).1.capture_regions 3 = none ∧
     (multiBatchStep c5St ⟨3, 11, false, 9⟩).2
       = [.delegateDereg 3 30 9, .unsubscribeRegion 3 30] ∧
     ∀ r, r ≠ 3 →
       alookup (multiBatchStep c5St ⟨3, 11, false, 9⟩).1.capture_regions r
         = alookup c5St.capture_regions r) ∧
    (multiBatchStep c5St ⟨4, 12, false, 9⟩ = (c5St, [])) ∧
    alookup (on_multi_batch c5St
        [⟨4, 1, true, 0⟩, ⟨3, 2, true, 0⟩, ⟨4, 3, false, 7⟩]).1.capture_regions 3
      = some { observe_id := 30, downstreams := [⟨5, 1, 0, true, 0⟩],
               failed := false, applied := [2], installed_locks := none } :=
  ⟨c5_multibatch_isolation.1 c5St ⟨3, 11, false, 9⟩
      { observe_id := 30, downstreams := [⟨5, 1, 0, true, 0⟩],
        failed := false, applied := [], installed_locks := none }
      (by decide) rfl rfl,
   c5_multibatch_isolation.2.2.1 c5St ⟨4, 12, false, 9⟩
      { observe_id := 40, downstreams := [⟨6, 1, 0, true, 0⟩],
        failed := true, applied := [], installed_locks := none }
      (by decide) rfl,
   c5_multibatch_isolation.2.2.2 c5St [⟨4, 1, true, 0⟩] [⟨4, 3, false, 7⟩]
      ⟨3, 2, true, 0⟩
      { observe_id := 30, downstreams := [⟨5, 1, 0, true, 0⟩],
        failed := false, applied := [], installed_locks := none }
      (by decide) (by decide) (by decide) rfl rfl⟩

/-- Every delegate present in `capture_regions` has at least one
downstream. -/
def InvNonempty (s : EndpointState) : Prop :=
  ∀ r delegate, alookup s.capture_regions r = some delegate →
    delegate.downstreams ≠ []

theorem dd_preserves (s : EndpointState) (region_id did : Nat)
    (err : Option Nat) (hinv : InvNonempty s) :
    InvNonempty (deregister_downstream s region_id did err).1 := by
  cases hdel : alookup s.capture_regions region_id with
  | none =>
    simp only [deregister_downstream, hdel]
    exact hinv
  | some delegate =>
    simp only [deregister_downstream, hdel]
    by_cases hrem :
        (delegate.downstreams.filter (fun e => decide (e.id ≠ did))).isEmpty = true
    · rw [if_pos hrem]
      intro r d hr
      have hr' : alookup (aremove s.capture_regions region_id) r = some d := hr
      by_cases hreq : r = region_id
      · subst hreq
        rw [alookup_aremove_self] at hr'
        exact absurd hr' (by simp)
      · rw [alookup_aremove_other _ _ _ hreq] at hr'
        exact hinv r d hr'
    · rw [if_neg hrem]
      intro r d hr
      by_cases hreq : r = region_id
      · subst hreq
        have hr' : alookup (ainsert s.capture_regions r
            { delegate with downstreams :=
                delegate.downstreams.filter (fun e => decide (e.id ≠ did)) }) r
            = some d := hr
        rw [alookup_ainsert_self] at hr'
        injection hr' with hr2
        subst hr2
        intro hc
        exact hrem (by
          show (delegate.downstreams.filter (fun e => decide (e.id ≠ did))).isEmpty = true
          rw [show delegate.downstreams.filter (fun e => decide (e.id ≠ did)) = [] from hc]
          rfl)
      · have hr' : alookup (ainsert s.capture_regions region_id
            { delegate with downstreams :=
                delegate.downstreams.filter (fun e => decide (e.id ≠ did)) }) r
            = some d := hr
        rw [alookup_ainsert_other _ _ _ _ hreq] at hr'
        exact hinv r d hr'

theorem deregister_delegate_preserves (s : EndpointState)
    (region_id observe_id err : Nat) (hinv : InvNonempty s) :
    InvNonempty (deregister_delegate s region_id observe_id err).1 := by
  cases hdel : alookup s.capture_regions region_id with
  | none =>
    simp only [deregister_delegate, hdel]
    exact hinv
  | some delegate =>
    simp only [deregister_delegate, hdel]
    by_cases hne : delegate.observe_id ≠ observe_id
    · rw [if_pos hne]
      exact hinv
    · rw [if_neg hne]
      intro r d hr
      have hr' : alookup (aremove s.capture_regions region_id) r = some d := hr
      by_cases hreq : r = region_id
      · subst hreq
        rw [alookup_aremove_self] at hr'
        exact absurd hr' (by simp)
      · rw [alookup_aremove_other _ _ _ hreq] at hr'
        exact hinv r d hr'

theorem foldl_preserves_inv {γ : Type}
    (f : EndpointState × List EventOut → γ → EndpointState × List EventOut)
    (hf : ∀ acc e, InvNonempty acc.1 → InvNonempty (f acc e).1) :
    ∀ (l : List γ) (acc : EndpointState × List EventOut),
      InvNonempty acc.1 → InvNonempty (l.foldl f acc).1 := by
  intro l
  induction l with
  | nil => intro acc h; exact h
  | cons e rest ih => intro acc h; exact ih _ (hf acc e h)

theorem on_deregister_preserves (s : EndpointState) (d : Deregister)
    (s' : EndpointState) (evs : List EventOut) (hinv : InvNonempty s)
    (h : on_deregister s d = some (s', evs)) : InvNonempty s' := by
  cases d with
  | conn conn_id =>
    cases hc : alookup s.connections conn_id with
    | none => rw [on_deregister, hc] at h; exact absurd h (by simp)
    | some conn =>
      simp only [on_deregister, hc, Option.some.injEq] at h
      have h1 := congrArg Prod.fst h
      simp only at h1
      rw [← h1]
      refine foldl_preserves_inv
        (fun acc e => ((deregister_downstream acc.1 e.1.2 e.2 none).1,
          acc.2 ++ (deregister_downstream acc.1 e.1.2 e.2 none).2))
        (fun acc e hh => dd_preserves _ _ _ _ hh) conn.subs _ ?_
      exact hinv
  | request conn_id request_id =>
    cases hc : alookup s.connections conn_id with
    | none => rw [on_deregister, hc] at h; exact absurd h (by simp)
    | some conn =>
      simp only [on_deregister, hc, Option.some.injEq] at h
      have h1 := congrArg Prod.fst h
      simp only at h1
      rw [← h1]
      refine foldl_preserves_inv
        (fun acc e => ((deregister_downstream acc.1 e.1 e.2 (some 0)).1,
          acc.2 ++ (deregister_downstream acc.1 e.1 e.2 (some 0)).2))
        (fun acc e hh => dd_preserves _ _ _ _ hh)
        (conn.unsubscribe_request request_id).1 _ ?_
      exact hinv
  | region conn_id request_id region_id =>
    cases hc : alookup s.connections conn_id with
    | none => rw [on_deregister, hc] at h; exact absurd h (by simp)
    | some conn =>
      simp only [on_deregister, hc] at h
      cases hu : (conn.unsubscribe request_id region_id).1 with
      | some did =>
        simp only [hu, Option.some.injEq] at h
        have h1 := congrArg Prod.fst h
        simp only at h1
        rw [← h1]
        exact dd_preserves _ _ _ _ hinv
      | none =>
        simp only [hu, Option.some.injEq] at h
        have h1 := congrArg Prod.fst h
        simp only at h1
        rw [← h1]
        exact hinv
  | downstream conn_id request_id region_id downstream_id err =>
    cases hc : alookup s.connections conn_id with
    | none =>
      simp only [on_deregister, hc, Option.some.injEq] at h
      have h1 := congrArg Prod.fst h
      simp only at h1
      rw [← h1]
      exact hinv
    | some conn =>
      simp only [on_deregister, hc] at h
      cases hg : conn.get_downstream request_id region_id with
      | none =>
        simp only [hg, Option.some.injEq] at h
        have h1 := congrArg Prod.fst h
        simp only at h1
        rw [← h1]
        exact hinv
      | some new_did =>
        simp only [hg] at h
        by_cases heq : new_did = downstream_id
        · rw [if_pos heq] at h
          simp only [Option.some.injEq] at h
          have h1 := congrArg Prod.fst h
          simp only at h1
          rw [← h1]
          exact dd_preserves _ _ _ _ hinv
        · rw [if_neg heq] at h
          simp only [Option.some.injEq] at h
          have h1 := congrArg Prod.fst h
          simp only at h1
          rw [← h1]
          exact hinv
  | delegate region_id observe_id err =>
    simp only [on_deregister, Option.some.injEq] at h
    have h1 := congrArg Prod.fst h
    simp only at h1
    rw [← h1]
    exact deregister_delegate_preserves _ _ _ _ hinv

theorem on_register_preserves (s : EndpointState)
    (request : ChangeDataRequest) (d : DownstreamReq) (fresh_oid : Nat)
    (hinv : InvNonempty s) :
    InvNonempty (on_register s request d fresh_oid).1 := by
  cases hc : alookup s.connections d.conn_id with
  | none =>
    simp only [on_register, hc]
    exact hinv
  | some conn =>
    simp only [on_register, hc]
    by_cases h1 : conn.has_validate_cluster_id ∧ s.cluster_id ≠ request.cluster_id
    · rw [if_pos h1]
      exact hinv
    rw [if_neg h1]
    by_cases h2 : ¬ request.kv_api_ok
    · rw [if_pos h2]
      exact hinv
    rw [if_neg h2]
    by_cases h3 : s.scan_limit ≤ s.scan_task_count
    · rw [if_pos h3]
      exact hinv
    rw [if_neg h3]
    by_cases h4 : ¬ request.region_id ∈ s.readers
    · rw [if_pos h4]
      exact hinv
    rw [if_neg h4]
    cases hsub : (conn.subscribe request.request_id request.region_id d.id).1 with
    | some old =>
      simp only [hsub]
      exact hinv
    | none =>
      simp only [hsub]
      cases hdel : alookup s.capture_regions request.region_id with
      | some delegate =>
        simp only [hdel]
        by_cases hok : d.sub_ok = true
        · rw [if_pos hok]
          intro r del hr
          by_cases hreq : r = request.region_id
          · subst hreq
            have hr' : alookup (ainsert s.capture_regions request.region_id
                { delegate with downstreams := delegate.downstreams
                    ++ [⟨d.id, d.conn_id, request.request_id, d.scan_ok, d.scan_err⟩] })
                request.region_id = some del := hr
            rw [alookup_ainsert_self] at hr'
            injection hr' with hr2
            subst hr2
            simp
          · have hr' : alookup (ainsert s.capture_regions request.region_id
                { delegate with downstreams := delegate.downstreams
                    ++ [⟨d.id, d.conn_id, request.request_id, d.scan_ok, d.scan_err⟩] }) r
                = some del := hr
            rw [alookup_ainsert_other _ _ _ _ hreq] at hr'
            exact hinv r del hr'
        · rw [if_neg hok]
          exact hinv
      | none =>
        simp only [hdel]
        by_cases hok : d.sub_ok = true
        · rw [if_pos hok]
          intro r del hr
          by_cases hreq : r = request.region_id
          · subst hreq
            have hr' : alookup (ainsert s.capture_regions request.region_id
                { Delegate.new fresh_oid with downstreams :=
                    [⟨d.id, d.conn_id, request.request_id, d.scan_ok, d.scan_err⟩] })
                request.region_id = some del := hr
            rw [alookup_ainsert_self] at hr'
            injection hr' with hr2
            subst hr2
            simp
          · have hr' : alookup (ainsert s.capture_regions request.region_id
                { Delegate.new fresh_oid with downstreams :=
                    [⟨d.id, d.conn_id, request.request_id, d.scan_ok, d.scan_err⟩] }) r
                = some del := hr
            rw [alookup_ainsert_other _ _ _ _ hreq] at hr'
            exact hinv r del hr'
        · rw [if_neg hok]
          exact hinv

/-- C6: last-downstream teardown.  (i) When a downstream deregistration
removes the last downstream of a live delegate, the delegate is removed from
`capture_regions` and the raft-level observation for the region is
unsubscribed.  (ii) Consequently the invariant "every delegate in
`capture_regions` has at least one downstream" is preserved by every
`Deregister` task variant (and is established by `on_register`, which only
creates delegates carrying their first downstream). -/
theorem c6_last_downstream_teardown :
    (∀ s region_id did err delegate,
      alookup s.capture_regions region_id = some delegate →
      delegate.downstreams.filter (fun e => decide (e.id ≠ did)) = [] →
      alookup (deregister_downstream s region_id did err).1.capture_regions
        region_id = none ∧
      (deregister_downstream s region_id did err).2
        = [.unsubscribeRegion region_id delegate.observe_id]) ∧
    (∀ s d s' evs, InvNonempty s → on_deregister s d = some (s', evs) →
      InvNonempty s') ∧
    (∀ s request d fresh_oid, InvNonempty s →
      InvNonempty (on_register s request d fresh_oid).1) := by
  refine ⟨?_, ?_, ?_⟩
  · intro s region_id did err delegate hdel hfilter
    simp only [deregister_downstream, hdel]
    rw [if_pos (by rw [hfilter]; rfl)]
    exact ⟨alookup_aremove_self _ _, rfl⟩
  · intro s d s' evs hinv h
    exact on_deregister_preserves s d s' evs hinv h
  · intro s request d fresh_oid hinv
    exact on_register_preserves s request d fresh_oid hinv

/-- An endpoint state whose only delegate (region 7) has a single
downstream, id 5, owned by conn 1 at request 0. -/
def c6St : EndpointState :=
  { cluster_id := 0,
    capture_regions :=
      [(7, { observe_id := 42, downstreams := [⟨5, 1, 0, true, 0⟩],
             failed := false, applied := [], installed_locks := none })],
    connections := [(1, ⟨false, false, [((0, 7), 5)]⟩)],
    scan_task_count := 0, scan_limit := 4, readers := [7], observed := [(7, 42)] }

theorem c6St_inv : InvNonempty c6St := by
  intro r delegate hr
  by_cases h7 : 7 = r
  · subst h7
    injection hr with h2
    subst h2
    simp
  · have : alookup c6St.capture_regions r = none := by
      show (if 7 = r then _ else alookup [] r) = none
      rw [if_neg h7]
      rfl
    rw [this] at hr
    exact absurd hr (by simp)

/-- Concrete witness for `c6_last_downstream_teardown`: deregistering
downstream 5 (the last one) of region 7 removes the delegate and
unsubscribes the observation, and the nonempty invariant survives the
corresponding `Deregister::Downstream` task. -/
theorem c6_last_downstream_teardown_witness :
    (alookup (deregister_downstream c6St 7 5 none).1.capture_regions 7 = none ∧
     (deregister_downstream c6St 7 5 none).2 = [.unsubscribeRegion 7 42]) ∧
    InvNonempty
      ((on_deregister c6St (.downstream 1 0 7 5 none)).getD (c6St, [])).1 :=
  ⟨c6_last_downstream_teardown.1 c6St 7 5 none
      { observe_id := 42, downstreams := [⟨5, 1, 0, true, 0⟩],
        failed := false, applied := [], installed_locks := none }
      (by decide) (by decide),
   c6_last_downstream_teardown.2.1 c6St (.downstream 1 0 7 5 none)
      ((on_deregister c6St (.downstream 1 0 7 5 none)).getD (c6St, [])).1
      ((on_deregister c6St (.downstream 1 0 7 5 none)).getD (c6St, [])).2
      c6St_inv (by decide)⟩

/-! ### `ChangeConfig` (`Endpoint::on_change_cfg`) -/

/-- Modelled from the spec: the CDC configuration fields the hot-reload path
touches (tikv's config.rs is not part of the excerpt).  Sizes, durations and
speeds are `Nat`; a speed limit of 0 means unlimited, as in the source. -/
structure CdcConfig where
  min_ts_interval : Nat
  old_value_cache_memory_quota : Nat
  incremental_scan_speed_limit : Nat
  incremental_fetch_speed_limit : Nat
  incremental_scan_threads : Nat
  incremental_scan_concurrency : Nat
  incremental_scan_concurrency_limit : Nat
  sink_memory_quota : Nat
deriving Repr, DecidableEq

/-- Modelled from the spec: an `online_config` `ConfigChange` — one optional
new value per hot field, with `ill_typed` standing for an entry that makes
`OnlineConfig::update` fail (unknown field / wrong type). -/
structure ConfigChange where
  ill_typed : Bool
  min_ts_interval : Option Nat
  old_value_cache_memory_quota : Option Nat
  incremental_scan_speed_limit : Option Nat
  incremental_fetch_speed_limit : Option Nat
  incremental_scan_threads : Option Nat
  incremental_scan_concurrency : Option Nat
  incremental_scan_concurrency_limit : Option Nat
  sink_memory_quota : Option Nat
deriving Repr, DecidableEq

/-- Modelled from the spec: applying a change's entries over a config. -/
def CdcConfig.applyChange (c : CdcConfig) (ch : ConfigChange) : CdcConfig :=
  { min_ts_interval := ch.min_ts_interval.getD c.min_ts_interval,
    old_value_cache_memory_quota :=
      ch.old_value_cache_memory_quota.getD c.old_value_cache_memory_quota,
    incremental_scan_speed_limit :=
      ch.incremental_scan_speed_limit.getD c.incremental_scan_speed_limit,
    incremental_fetch_speed_limit :=
      ch.incremental_fetch_speed_limit.getD c.incremental_fetch_speed_limit,
    incremental_scan_threads :=
      ch.incremental_scan_threads.getD c.incremental_scan_threads,
    incremental_scan_concurrency :=
      ch.incremental_scan_concurrency.getD c.incremental_scan_concurrency,
    incremental_scan_concurrency_limit :=
      ch.incremental_scan_concurrency_limit.getD c.incremental_scan_concurrency_limit,
    sink_memory_quota := ch.sink_memory_quota.getD c.sink_memory_quota }

/-- Modelled from the spec: `CdcConfig::update` — fails on an ill-typed
entry, otherwise applies the change. -/
def CdcConfig.update (c : CdcConfig) (ch : ConfigChange) : Except Unit CdcConfig :=
  if ch.ill_typed then .error () else .ok (c.applyChange ch)

/-- Modelled from the spec: `CdcConfig::validate` — rejects a zero
resolution interval and clamps a scan concurrency below the number of scan
worker threads up to that number, rather than applying it verbatim. -/
def CdcConfig.validate (c : CdcConfig) : Except Unit CdcConfig :=
  if c.min_ts_interval = 0 then .error ()
  else
    let clamped := max c.incremental_scan_concurrency c.incremental_scan_threads
    .ok { c with incremental_scan_concurrency := clamped }

/-- Modelled from the spec: `OnlineConfig::diff` — an entry per field whose
values differ, carrying the second config's value. -/
def CdcConfig.diff (c1 c2 : CdcConfig) : ConfigChange :=
  { ill_typed := false,
    min_ts_interval :=
      if c1.min_ts_interval = c2.min_ts_interval then none
      else some c2.min_ts_interval,
    old_value_cache_memory_quota :=
      if c1.old_value_cache_memory_quota = c2.old_value_cache_memory_quota
      then none else some c2.old_value_cache_memory_quota,
    incremental_scan_speed_limit :=
      if c1.incremental_scan_speed_limit = c2.incremental_scan_speed_limit
      then none else some c2.incremental_scan_speed_limit,
    incremental_fetch_speed_limit :=
      if c1.incremental_fetch_speed_limit = c2.incremental_fetch_speed_limit
      then none else some c2.incremental_fetch_speed_limit,
    incremental_scan_threads :=
      if c1.incremental_scan_threads = c2.incremental_scan_threads then none
      else some c2.incremental_scan_threads,
    incremental_scan_concurrency :=
      if c1.incremental_scan_concurrency = c2.incremental_scan_concurrency
      then none else some c2.incremental_scan_concurrency,
    incremental_scan_concurrency_limit :=
      if c1.incremental_scan_concurrency_limit
          = c2.incremental_scan_concurrency_limit
      then none else some c2.incremental_scan_concurrency_limit,
    sink_memory_quota :=
      if c1.sink_memory_quota = c2.sink_memory_quota then none
      else some c2.sink_memory_quota }

/-- The speed a `Limiter` is set to from a configured value: a positive value
itself, 0 meaning unlimited (`f64::INFINITY` in the source). -/
def speedOf (v : Nat) : Option Nat :=
  if 0 < v then some v else none

/-- The endpoint's live knobs adjusted by `on_change_cfg`: the old-value
cache capacity, the scan-concurrency semaphore permits, the sink
memory-quota capacity, and the two rate-limiter speeds. -/
structure Knobs where
  old_value_cache_capacity : Nat
  scan_concurrency_permits : Nat
  sink_memory_capacity : Nat
  scan_speed_limit : Option Nat
  fetch_speed_limit : Option Nat
deriving Repr, DecidableEq

/-- `Endpoint::on_change_cfg`: validate on a clone first (update then
validate; either failure leaves everything untouched), then commit the
diff against the validated clone to the stored config and adjust exactly
the knobs whose keys appear in that diff. -/
def on_change_cfg (st : CdcConfig × Knobs) (change : ConfigChange) :
    CdcConfig × Knobs :=
  match CdcConfig.update st.1 change with
  | .error _ => st
  | .ok updated =>
    match CdcConfig.validate updated with
    | .error _ => st
    | .ok validate_cfg =>
      let change' := CdcConfig.diff st.1 validate_cfg
      let cfg' := CdcConfig.applyChange st.1 change'
      let k0 := st.2
      let k1 := if change'.old_value_cache_memory_quota.isSome then
          { k0 with old_value_cache_capacity := cfg'.old_value_cache_memory_quota }
        else k0
      let k2 := if change'.incremental_scan_concurrency.isSome then
          { k1 with scan_concurrency_permits := cfg'.incremental_scan_concurrency }
        else k1
      let k3 := if change'.sink_memory_quota.isSome then
          { k2 with sink_memory_capacity := cfg'.sink_memory_quota }
        else k2
      let k4 := if change'.incremental_scan_speed_limit.isSome then
          { k3 with scan_speed_limit := speedOf cfg'.incremental_scan_speed_limit }
        else k3
      let k5 := if change'.incremental_fetch_speed_limit.isSome then
          { k4 with fetch_speed_limit := speedOf cfg'.incremental_fetch_speed_limit }
        else k4
      (cfg', k5)

/-- The live knobs agree with the stored config. -/
def KnobsSync (c : CdcConfig) (k : Knobs) : Prop :=
  k.old_value_cache_capacity = c.old_value_cache_memory_quota ∧
  k.scan_concurrency_permits = c.incremental_scan_concurrency ∧
  k.sink_memory_capacity = c.sink_memory_quota ∧
  k.scan_speed_limit = speedOf c.incremental_scan_speed_limit ∧
  k.fetch_speed_limit = speedOf c.incremental_fetch_speed_limit

theorem diffField_getD (a b : Nat) :
    ((if a = b then none else some b) : Option Nat).getD a = b := by
  by_cases h : a = b <;> simp [h]

theorem getD_getD (o : Option Nat) (a : Nat) : o.getD (o.getD a) = o.getD a := by
  cases o <;> rfl

theorem applyChange_diff (c1 c2 : CdcConfig) :
    c1.applyChange (c1.diff c2) = c2 := by
  cases c1
  cases c2
  simp [CdcConfig.applyChange, CdcConfig.diff, diffField_getD]

theorem diff_self (c : CdcConfig) :
    c.diff c = ⟨false, none, none, none, none, none, none, none, none⟩ := by
  simp [CdcConfig.diff]

theorem applyChange_none (c : CdcConfig) :
    c.applyChange ⟨false, none, none, none, none, none, none, none, none⟩ = c := by
  cases c
  simp [CdcConfig.applyChange]

theorem validate_applyChange (c v : CdcConfig) (ch : ConfigChange)
    (h : (c.applyChange ch).validate = .ok v) :
    (v.applyChange ch).validate = .ok v := by
  obtain ⟨cm, cq, cs, cf, cth, cc, cl, csk⟩ := c
  obtain ⟨it, m1, m2, m3, m4, m5, m6, m7, m8⟩ := ch
  unfold CdcConfig.validate at h ⊢
  by_cases hmin :
      (CdcConfig.applyChange ⟨cm, cq, cs, cf, cth, cc, cl, csk⟩
        ⟨it, m1, m2, m3, m4, m5, m6, m7, m8⟩).min_ts_interval = 0
  · rw [if_pos hmin] at h
    exact absurd h (by simp)
  · rw [if_neg hmin] at h
    simp only [Except.ok.injEq] at h
    subst h
    simp only [CdcConfig.applyChange, getD_getD] at hmin ⊢
    rw [if_neg hmin]
    cases m6 <;> simp [Nat.max_assoc, Nat.max_self]

set_option maxHeartbeats 1000000 in
/-- C9: ChangeConfig atomicity.  (i) A diff whose `update` fails leaves the
stored config and every knob unchanged.  (ii) A diff whose updated config
fails validation likewise changes nothing.  (iii) A processed ChangeConfig
keeps the knobs fully in sync with the stored config (the change is never
partially applied).  (iv) Applying the same diff twice yields the same
config and knobs as applying it once. -/
theorem c9_change_config_atomic :
    (∀ (st : CdcConfig × Knobs) (ch : ConfigChange),
      CdcConfig.update st.1 ch = .error () → on_change_cfg st ch = st) ∧
    (∀ (st : CdcConfig × Knobs) (ch : ConfigChange) (u : CdcConfig),
      CdcConfig.update st.1 ch = .ok u → u.validate = .error () →
      on_change_cfg st ch = st) ∧
    (∀ (st : CdcConfig × Knobs) (ch : ConfigChange),
      KnobsSync st.1 st.2 →
      KnobsSync (on_change_cfg st ch).1 (on_change_cfg st ch).2) ∧
    (∀ (st : CdcConfig × Knobs) (ch : ConfigChange),
      on_change_cfg (on_change_cfg st ch) ch = on_change_cfg st ch) := by
  refine ⟨?_, ?_, ?_, ?_⟩
  · intro st ch h
    simp only [on_change_cfg, h]
  · intro st ch u h1 h2
    simp only [on_change_cfg, h1, h2]
  · intro st ch hsync
    cases hupd : CdcConfig.update st.1 ch with
    | error e =>
      simp only [on_change_cfg, hupd]
      exact hsync
    | ok u =>
      cases hval : CdcConfig.validate u with
      | error e =>
        simp only [on_change_cfg, hupd, hval]
        exact hsync
      | ok v =>
        simp only [on_change_cfg, hupd, hval, applyChange_diff]
        obtain ⟨e1, e2, e3, e4, e5⟩ := hsync
        refine ⟨?_, ?_, ?_, ?_, ?_⟩
        · simp only [apply_ite (fun k : Knobs => k.old_value_cache_capacity),
            ite_self]
          by_cases heq : st.1.old_value_cache_memory_quota
              = v.old_value_cache_memory_quota
          · simp [CdcConfig.diff, heq, e1]
          · simp [CdcConfig.diff, heq]
        · simp only [apply_ite (fun k : Knobs => k.scan_concurrency_permits),
            ite_self]
          by_cases heq : st.1.incremental_scan_concurrency
              = v.incremental_scan_concurrency
          · simp [CdcConfig.diff, heq, e2]
          · simp [CdcConfig.diff, heq]
        · simp only [apply_ite (fun k : Knobs => k.sink_memory_capacity),
            ite_self]
          by_cases heq : st.1.sink_memory_quota = v.sink_memory_quota
          · simp [CdcConfig.diff, heq, e3]
          · simp [CdcConfig.diff, heq]
        · simp only [apply_ite (fun k : Knobs => k.scan_speed_limit), ite_self]
          by_cases heq : st.1.incremental_scan_speed_limit
              = v.incremental_scan_speed_limit
          · simp [CdcConfig.diff, heq, e4]
          · simp [CdcConfig.diff, heq]
        · simp only [apply_ite (fun k : Knobs => k.fetch_speed_limit), ite_self]
          by_cases heq : st.1.incremental_fetch_speed_limit
              = v.incremental_fetch_speed_limit
          · simp [CdcConfig.diff, heq, e5]
          · simp [CdcConfig.diff, heq]
  · intro st ch
    cases hupd : CdcConfig.update st.1 ch with
    | error e =>
      cases e
      simp only [on_change_cfg, hupd]
    | ok u =>
      cases hval : CdcConfig.validate u with
      | error e =>
        cases e
        simp only [on_change_cfg, hupd, hval]
      | ok v =>
        have hill : ch.ill_typed = false := by
          by_contra hc
          have hc' : ch.ill_typed = true := by
            cases hb : ch.ill_typed
            · exact absurd hb hc
            · rfl
          rw [CdcConfig.update.eq_def, if_pos (by simp [hc'])] at hupd
          exact absurd hupd (by simp)
        have hu : u = st.1.applyChange ch := by
          rw [CdcConfig.update.eq_def, if_neg (by simp [hill])] at hupd
          simp only [Except.ok.injEq] at hupd
          exact hupd.symm
        subst hu
        have hval2 := validate_applyChange st.1 v ch hval
        simp only [on_change_cfg, hupd, hval, applyChange_diff]
        have hupd2 : CdcConfig.update v ch = .ok (v.applyChange ch) := by
          rw [CdcConfig.update.eq_def, if_neg (by simp [hill])]
        simp only [hupd2, hval2, diff_self, applyChange_none]
        simp [Option.isSome]

/-- Concrete witness for `c9_change_config_atomic`: an ill-typed change and a
zero-interval change are no-ops on a synced state, and the sync survives a
change that resizes the cache and sets a scan concurrency of 2 that gets
clamped to the 4 worker threads. -/
theorem c9_change_config_atomic_witness :
    (CdcConfig.update ⟨1, 10, 0, 0, 4, 4, 6, 100⟩
        ⟨true, none, none, none, none, none, none, none, none⟩ = .error () ∧
      on_change_cfg (⟨1, 10, 0, 0, 4, 4, 6, 100⟩, ⟨10, 4, 100, none, none⟩)
        ⟨true, none, none, none, none, none, none, none, none⟩
        = (⟨1, 10, 0, 0, 4, 4, 6, 100⟩, ⟨10, 4, 100, none, none⟩)) ∧
    (on_change_cfg (⟨1, 10, 0, 0, 4, 4, 6, 100⟩, ⟨10, 4, 100, none, none⟩)
        ⟨false, some 0, none, none, none, none, none, none, none⟩
        = (⟨1, 10, 0, 0, 4, 4, 6, 100⟩, ⟨10, 4, 100, none, none⟩)) ∧
    (KnobsSync ⟨1, 10, 0, 0, 4, 4, 6, 100⟩ ⟨10, 4, 100, none, none⟩ ∧
      KnobsSync
        (on_change_cfg (⟨1, 10, 0, 0, 4, 4, 6, 100⟩, ⟨10, 4, 100, none, none⟩)
          ⟨false, none, some 20, none, none, none, some 2, none, none⟩).1
        (on_change_cfg (⟨1, 10, 0, 0, 4, 4, 6, 100⟩, ⟨10, 4, 100, none, none⟩)
          ⟨false, none, some 20, none, none, none, some 2, none, none⟩).2) :=
  ⟨⟨rfl,
    c9_change_config_atomic.1
      (⟨1, 10, 0, 0, 4, 4, 6, 100⟩, ⟨10, 4, 100, none, none⟩)
      ⟨true, none, none, none, none, none, none, none, none⟩ rfl⟩,
   c9_change_config_atomic.2.1
      (⟨1, 10, 0, 0, 4, 4, 6, 100⟩, ⟨10, 4, 100, none, none⟩)
      ⟨false, some 0, none, none, none, none, none, none, none⟩
      ⟨0, 10, 0, 0, 4, 4, 6, 100⟩ rfl rfl,
   ⟨⟨rfl, rfl, rfl, rfl, rfl⟩,
    c9_change_config_atomic.2.2.1
      (⟨1, 10, 0, 0, 4, 4, 6, 100⟩, ⟨10, 4, 100, none, none⟩)
      ⟨false, none, some 20, none, none, none, some 2, none, none⟩
      ⟨rfl, rfl, rfl, rfl, rfl⟩⟩⟩

end Cdc
